import Mathlib

/-!
Verification of the lucid-rpc correlation and dispatch core.

The development shallowly embeds the Python sources of the repository:

* `src/protocol.py` — length-prefixed JSON framing (`send_message`,
  `recv_exact`, `recv_message`) and the shared response constructors
  (`ok_response`, `error_response`);
* `src/runtimes/threaded.py` — the server connection loop
  (`ThreadServer._handle_client`) and dispatch (`ThreadServer._dispatch`);
* `src/client.py` — the client correlation engine (`RPCClient.call_async`,
  `RPCClient.wait_response`, `RPCClient.close`, `RPCClient._reader_loop`,
  `RPCClient.call`);
* `src/server.py` — the demonstration handlers `add` and `divide`.

`src/rpc.py` contains byte-identical copies of the same client, server and
framing logic (`RPCServer._handle_client`, `RPCServer._dispatch`,
`RPCClient.wait_response`, `_send_message`, `_recv_message`); the embedding
below therefore covers both files at once.

JSON values are modelled by the inductive type `Json`.  Python `None` and
JSON `null` are both modelled by `Json.null`, exactly as in CPython where
`json.loads` decodes `null` to `None`.  Python floats appear in the model as
the payload-free constructor `Json.float`: binary64 arithmetic and float
repr formatting are outside the embedding, and no modelled code path ever
inspects a float value — the server only produces one (true division) and
`isinstance` checks only look at the tag.  The serializer `dumpsVal`
consequently returns `none` on values containing floats; everything else is
modelled exactly, including CPython `json.dumps` `ensure_ascii` escaping
(with surrogate pairs for astral code points) and the `", "` / `": "`
default separators, and the CPython `json.loads` scanner including its
whitespace skipping, surrogate-pair recombination and duplicate-key
last-wins dict construction.
-/

/-- Code points for the two characters that are awkward to write as
literals: the double quote (34) and the backslash (92). -/
def quot : Char := Char.ofNat 34

/-- Backslash character, code point 92. -/
def bslash : Char := Char.ofNat 92

/-- JSON-representable Python values: `None`, `bool`, `int`, `float`,
`str`, `list`, `dict` with string keys.  `float` carries no payload (see
the module comment).  Object member order is significant, as it is for
Python dicts and for `json.dumps`/`json.loads`. -/
inductive Json where
  | null
  | bool (b : Bool)
  | int (n : Int)
  | float
  | str (s : String)
  | arr (xs : List Json)
  | obj (kvs : List (String × Json))

/-- Models Python `d.get(k)` on a decoded JSON object: `None` (here
`Json.null`) when the key is absent.  A present key holding JSON `null`
also yields Python `None`, so the two cases coincide exactly as in
CPython. -/
def pyGetKvs (kvs : List (String × Json)) (k : String) : Json :=
  (List.lookup k kvs).getD .null

/-- Models Python dict assignment `d[k] = v`: update in place when the key
is present (keeping its position, as CPython dicts do), else append. -/
def pyUpsert (kvs : List (String × Json)) (k : String) (v : Json) :
    List (String × Json) :=
  match kvs with
  | [] => [(k, v)]
  | (k2, v2) :: rest =>
    if k2 = k then (k2, v) :: rest else (k2, v2) :: pyUpsert rest k v

/-- Models the dict built by the CPython JSON object scanner: starting from
`{}`, assign each parsed member in document order (`pairs[key] = value`),
so duplicate keys collapse with the last value winning. -/
def pyDictPairs (pairs : List (String × Json)) : List (String × Json) :=
  pairs.foldl (fun acc kv => pyUpsert acc kv.1 kv.2) []

/-- No string occurs twice in the list (object keys are pairwise
distinct). -/
def keysFresh : List String → Bool
  | [] => true
  | k :: ks => (!ks.contains k) && keysFresh ks

mutual
/-- Well-formedness of a `Json` value as the image of a Python object:
every object has pairwise distinct keys (Python dicts cannot hold
duplicates).  Needed because `json.loads` collapses duplicate keys. -/
def wfVal : Json → Bool
  | .null => true
  | .bool _ => true
  | .int _ => true
  | .float => true
  | .str _ => true
  | .arr xs => wfElems xs
  | .obj kvs => keysFresh (kvs.map Prod.fst) && wfMembers kvs

/-- All elements of a JSON array are well-formed. -/
def wfElems : List Json → Bool
  | [] => true
  | x :: xs => wfVal x && wfElems xs

/-- All member values of a JSON object are well-formed. -/
def wfMembers : List (String × Json) → Bool
  | [] => true
  | (_, v) :: kvs => wfVal v && wfMembers kvs
end

/-! ## Response constructors (src/protocol.py lines 67 to 93)

The same constructors appear as `RPCServer._ok_response` and
`RPCServer._error_response` in `src/rpc.py`. -/

/-- Models `ok_response(request_id, result)`. -/
def ok_response (request_id : Json) (result : Json) : Json :=
  .obj [("type", .str "response"), ("id", request_id), ("ok", .bool true),
        ("result", result), ("error", .null)]

/-- Models `error_response(request_id, code, message, details)`. -/
def error_response (request_id : Json) (code : String) (message : String)
    (details : List (String × Json)) : Json :=
  .obj [("type", .str "response"), ("id", request_id), ("ok", .bool false),
        ("result", .null),
        ("error", .obj [("code", .str code), ("message", .str message),
                        ("details", .obj details)])]

/-! ## Server dispatch engine (src/runtimes/threaded.py) -/

/-- Models `RPCRequest` (src/protocol.py lines 13 to 18): the structured
view of a validated request envelope. -/
structure JRequest where
  request_id : Json
  method : String
  params : Json
  meta : List (String × Json)

/-- The shape in which decoded `params` are handed to a handler, the
"spread by shape" convention of `_dispatch` (threaded.py lines 109 to
114): a JSON array is spread positionally (`func(*params)`), a JSON object
is spread by name (`func(**params)`), anything else — scalar or the
`null` left by an absent field — is passed as the sole argument
(`func(params)`). -/
inductive HArgs where
  | positional (xs : List Json)
  | named (kvs : List (String × Json))
  | single (v : Json)

/-- Models the `isinstance` dispatch on `request.params` in `_dispatch`:
`list`/`tuple` spreads positionally, `dict` spreads by name, everything
else is a single argument.  Decoded JSON can never be a tuple, so the
`list` arm alone covers the `(list, tuple)` check. -/
def argsOfParams : Json → HArgs
  | .arr xs => .positional xs
  | .obj kvs => .named kvs
  | v => .single v

/-- A handler is Python code invoked by dispatch: it returns a value or
raises an exception, modelled as `Except` with the exception text
(`str(exc)`) on the error side. -/
abbrev Handler := HArgs → Except String Json

/-- Models `ThreadServer._dispatch` (threaded.py lines 98 to 122, identical
to `RPCServer._dispatch` in rpc.py): unknown method yields
`METHOD_NOT_FOUND` with the method name in `details`; otherwise the
handler is invoked per the spreading rule, a raised exception is caught
and converted to `INTERNAL` with the exception text as message and the
method name in `details`, and a returned value yields `ok_response`. -/
def dispatch (methods : List (String × Handler)) (req : JRequest) : Json :=
  match List.lookup req.method methods with
  | none =>
    error_response req.request_id "METHOD_NOT_FOUND"
      ("Method not found: " ++ req.method) [("method", .str req.method)]
  | some func =>
    match func (argsOfParams req.params) with
    | .ok result => ok_response req.request_id result
    | .error msg =>
      error_response req.request_id "INTERNAL" msg
        [("method", .str req.method)]

/-- Models the handler `add(a, b) = a + b` (src/server.py lines 10 to 11)
on the integer inputs of its declared signature, spread either positionally
or by name; any other call shape raises (Python `TypeError`), whose exact
message text is abstracted.  The claimed scenario `[2, 3] to 5` uses only
the positional-integers path, which is exact. -/
def add : Handler
  | .positional [.int a, .int b] => .ok (.int (a + b))
  | .named [("a", .int a), ("b", .int b)] => .ok (.int (a + b))
  | .named [("b", .int b), ("a", .int a)] => .ok (.int (a + b))
  | _ => .error "TypeError: argument mismatch for add"

/-- Models the handler `divide(a, b)` (src/server.py lines 14 to 17): a
zero divisor raises `ValueError("Division by zero")`, whose `str` is
exactly "Division by zero"; a nonzero divisor returns the Python float
`a / b` (true division), whose value is outside the embedding.  Non-integer
call shapes raise `TypeError` with abstracted text. -/
def divide : Handler
  | .positional [.int _, .int b] =>
    if b = 0 then .error "Division by zero" else .ok .float
  | .named [("a", .int _), ("b", .int b)] =>
    if b = 0 then .error "Division by zero" else .ok .float
  | .named [("b", .int b), ("a", .int _)] =>
    if b = 0 then .error "Division by zero" else .ok .float
  | _ => .error "TypeError: argument mismatch for divide"

/-- The routing table registered by `build_server` (src/server.py lines 28
to 29). -/
def demo_methods : List (String × Handler) := [("add", add), ("divide", divide)]

/-- Result of one iteration of the server connection loop
(`_handle_client`) on one decoded envelope. -/
inductive LoopStep where
  | crash (exc : String)
  | skip
  | reply (resp : Json)
  | dispatched (req : JRequest)

/-- Models attribute access `message.get(k)` on a freshly decoded payload:
on a dict it is `pyGetKvs`; on any other decoded value (list, str, int,
bool, None) Python raises `AttributeError`, which nothing in
`_handle_client` catches. -/
def pyMsgGet (m : Json) (k : String) : Except String Json :=
  match m with
  | .obj kvs => .ok (pyGetKvs kvs k)
  | _ => .error "AttributeError: object has no attribute get"

/-- Whether the decoded value is a dict (`isinstance(message, dict)`). -/
def isObjJ : Json → Bool
  | .obj _ => true
  | _ => false

/-- Models `t not in (None, "request")` being false, i.e. the tag value
compares equal (Python `==`) to `None` or to the string "request". -/
def isRequestTag : Json → Bool
  | .null => true
  | .str s => s = "request"
  | _ => false

/-- Models `t not in (None, "response")` being false. -/
def isResponseTag : Json → Bool
  | .null => true
  | .str s => s = "response"
  | _ => false

/-- Models the body of one `ThreadServer._handle_client` loop iteration
(threaded.py lines 26 to 83) after `recv_message` has produced the decoded
payload `m`, faithfully in source order:

1. line 30 evaluates `message.get("type")` — on a non-dict payload this
   raises `AttributeError`, killing the connection thread (`crash`);
2. a present `type` other than `None`/"request" is skipped (`continue`);
3. line 33 checks `isinstance(message, dict)` — kept here verbatim, though
   it can no longer fail because step 1 already crashed on non-dicts;
4. `meta`, read with default `{}`, must be a dict, else `BAD_REQUEST`;
5. `method` must be present and a string, else `BAD_REQUEST`;
6. otherwise the envelope is handed to a fresh dispatch thread.

Note that a `meta` key present with JSON `null` reads back as Python
`None` (not the `{}` default), so it fails the dict check. -/
def handle_envelope (m : Json) : LoopStep :=
  match pyMsgGet m "type" with
  | .error e => .crash e
  | .ok t =>
    if !(isRequestTag t) then .skip
    else if !(isObjJ m) then
      .reply (error_response .null "BAD_REQUEST"
        "Payload must be a JSON object" [])
    else
      match m with
      | .obj kvs =>
        let request_id := pyGetKvs kvs "id"
        let meta := (List.lookup "meta" kvs).getD (Json.obj [])
        match meta with
        | .obj mkvs =>
          (match pyGetKvs kvs "method" with
           | .str s =>
             .dispatched ⟨request_id, s, pyGetKvs kvs "params", mkvs⟩
           | _ =>
             .reply (error_response request_id "BAD_REQUEST"
               "Field \x27method\x27 is required and must be a string"
               [("field", .str "method")]))
        | _ =>
          .reply (error_response request_id "BAD_REQUEST"
            "Field \x27meta\x27 must be an object when provided"
            [("field", .str "meta")])
      | _ => .crash "unreachable"

/-! ## Client correlation engine (src/client.py) -/

/-- The mutable client state guarded by `self._lock`: the strictly
increasing id counter `_next_id` and the pending map `_pending` from
outstanding id to its delivery queue.  `queue.Queue(maxsize=1)` is
modelled as the list of messages put and not yet consumed; the
`maxsize=1` bound only makes a second concurrent `put` block, which has
no counterpart in a sequential embedding. -/
structure ClientState where
  next_id : Nat
  pending : List (Nat × List Json)

/-- The state of a client right after `__init__`/`connect`: `_next_id = 1`
and an empty pending map. -/
def initialClient : ClientState := ⟨1, []⟩

/-- Models `RPCClient.call_async` (client.py lines 98 to 123) restricted to
the correlation state: under the lock, allocate `request_id = _next_id`,
increment the counter, and register a fresh empty delivery queue under the
new id (CPython dict insertion appends).  The encoded request is written to
the socket under the send lock; the bytes sent do not affect the
correlation state and are covered by `send_message` below. -/
def call_async (st : ClientState) : Nat × ClientState :=
  (st.next_id, ⟨st.next_id + 1, st.pending ++ [(st.next_id, [])]⟩)

/-- Models `self._pending.get(request_id)` under the lock. -/
def lookup_pending (st : ClientState) (rid : Nat) : Option (List Json) :=
  List.lookup rid st.pending

/-- Models `self._pending.pop(request_id, None)` under the lock. -/
def pop_pending (st : ClientState) (rid : Nat) : ClientState :=
  ⟨st.next_id, st.pending.filter (fun p => !(p.1 = rid))⟩

/-- The ways `RPCClient.wait_response` returns or raises: a returned
`result`, a raised `RPCClientError` carrying the structured error payload
(the code wraps it as `RPCError.from_payload(error_payload)`), a raised
`RuntimeError` for a response violating the schema checks (the
protocol-violation failure of the design), a raised `TimeoutError`, and a
raised `RuntimeError` for an unknown request id. -/
inductive WaitOutcome where
  | result (r : Json)
  | rpcError (e : List (String × Json))
  | protocolViolation (msg : String)
  | timedOut
  | unknownRequest

/-- Models the `response.get("type") not in (None, "response")` check of
`wait_response`: absent key and JSON `null` both read as Python `None`. -/
def typeOkResp (kvs : List (String × Json)) : Bool :=
  match List.lookup "type" kvs with
  | none => true
  | some .null => true
  | some (.str s) => s = "response"
  | some _ => false

/-- Models the `response.get("id") not in (None, request_id)` check, with
Python equality: `request_id` here is always an allocated integer id, and
Python `True == 1` and `False == 0` hold, so a boolean id field compares
as its integer value. -/
def idOkResp (kvs : List (String × Json)) (rid : Nat) : Bool :=
  match List.lookup "id" kvs with
  | none => true
  | some .null => true
  | some (.int n) => n = (rid : Int)
  | some (.bool b) => (if b then (1 : Int) else 0) = (rid : Int)
  | some _ => false

/-- The outcome `RPCClient.wait_response` produces for a waiter once its
queue entry exists, as a function of what `queue.get` yielded (client.py
lines 131 to 156): `queue.Empty` raises `TimeoutError`; a delivered
message is checked in source order — the type tag, the id echo, then the
`ok` field: `ok is True` returns `result` directly, `ok is False`
requires a dict `error` payload and raises the structured error, and any
other `ok` raises `RuntimeError`.  A non-dict delivered message makes
`response.get` itself raise `AttributeError`. -/
def wait_outcome_of (rid : Nat) (arrival : Option Json) : WaitOutcome :=
  match arrival with
  | none => .timedOut
  | some resp =>
    match resp with
    | .obj kvs =>
      if !(typeOkResp kvs) then
        .protocolViolation "Invalid response from server"
      else if !(idOkResp kvs rid) then
        .protocolViolation "Mismatched response id from server"
      else
        match pyGetKvs kvs "ok" with
        | .bool true => .result (pyGetKvs kvs "result")
        | .bool false =>
          (match pyGetKvs kvs "error" with
           | .obj e => .rpcError e
           | _ => .protocolViolation "Invalid error payload from server")
        | _ =>
          .protocolViolation "Missing required field \x27ok\x27 in response"
    | _ => .protocolViolation "AttributeError: object has no attribute get"

/-- Models `RPCClient.wait_response` (client.py lines 125 to 156,
identical to rpc.py lines 496 to 535).  The result of the blocking
`queue.get(timeout=...)` depends on real time and on concurrent `put`s,
so it is an explicit input: `some resp` is a delivered message, `none` is
`queue.Empty` (timeout).  Look the queue up (raise `RuntimeError`
"Unknown request id" if absent, leaving the state unchanged); on every
other outcome the entry is popped — the source pops both on the timeout
path and right after a delivery, before any validation — and the outcome
is `wait_outcome_of`. -/
def wait_response (st : ClientState) (rid : Nat) (arrival : Option Json) :
    WaitOutcome × ClientState :=
  match lookup_pending st rid with
  | none => (.unknownRequest, st)
  | some _ => (wait_outcome_of rid arrival, pop_pending st rid)

/-- The synthetic response `RPCClient.close` puts into every pending queue
(client.py lines 42 to 55): a connection-level error with a null id and
code `CONNECTION_CLOSED`. -/
def connection_closed_response : Json :=
  .obj [("type", .str "response"), ("id", .null), ("ok", .bool false),
        ("result", .null),
        ("error", .obj [("code", .str "CONNECTION_CLOSED"),
                        ("message", .str "Connection closed"),
                        ("details", .obj [])])]

/-- The synthetic response the reader loop puts into every pending queue
when `recv_message` raises (client.py lines 83 to 96): a connection-level
error with a null id and code `CONNECTION_ERROR`, carrying the failure
text as `details.cause`. -/
def connection_error_response (cause : String) : Json :=
  .obj [("type", .str "response"), ("id", .null), ("ok", .bool false),
        ("result", .null),
        ("error", .obj [("code", .str "CONNECTION_ERROR"),
                        ("message",
                         .str "Connection dropped while waiting for response"),
                        ("details", .obj [("cause", .str cause)])])]

/-- The shared draining step of `close` and of the reader loop epilogue:
under the lock, snapshot all pending queues and clear the map, then put
the synthetic response into each snapshotted queue.  Returns the new state
and, per formerly pending id, the queue contents after the put. -/
def drain_pending (st : ClientState) (synthetic : Json) :
    ClientState × List (Nat × List Json) :=
  (⟨st.next_id, []⟩, st.pending.map (fun p => (p.1, p.2 ++ [synthetic])))

/-- Models `RPCClient.close` (client.py lines 32 to 55) restricted to the
correlation state: stop the reader, close the socket, then drain every
pending entry with the `CONNECTION_CLOSED` synthetic response. -/
def client_close (st : ClientState) : ClientState × List (Nat × List Json) :=
  drain_pending st connection_closed_response

/-- Models the epilogue of `RPCClient._reader_loop` (client.py lines 57 to
96) after `recv_message` raised `exc`: the loop breaks and every pending
entry is drained with the `CONNECTION_ERROR` synthetic response carrying
`str(exc)`. -/
def reader_fail (st : ClientState) (cause : String) :
    ClientState × List (Nat × List Json) :=
  drain_pending st (connection_error_response cause)

/-- One routing step of `RPCClient._reader_loop` for a successfully
decoded message (client.py lines 68 to 76): a message whose `type` tag is
present and differs from "response" is skipped; otherwise the message is
put into the queue registered under its `id` field if one exists, and
discarded if none is (stale, timed out, or unsolicited).  A non-dict
decoded message makes `response.get` raise `AttributeError`, killing the
reader thread without the draining epilogue. -/
def reader_route (st : ClientState) (resp : Json) :
    Except String ClientState :=
  match pyMsgGet resp "type" with
  | .error e => .error e
  | .ok t =>
    if !(isResponseTag t) then .ok st
    else
      match resp with
      | .obj kvs =>
        (match pyGetKvs kvs "id" with
         | .int n =>
           if 0 ≤ n then
             (match lookup_pending st n.toNat with
              | none => .ok st
              | some q =>
                .ok ⟨st.next_id,
                  st.pending.map
                    (fun p => if p.1 = n.toNat then (p.1, q ++ [resp]) else p)⟩)
           else .ok st
         | _ => .ok st)
      | _ => .error "AttributeError: object has no attribute get"

/-- Correlation-engine operations whose interleaving (under the mutex) the
trace theorems quantify over. -/
inductive ClientOp where
  | callAsync
  | waitResp (rid : Nat) (arrival : Option Json)
  | closeConn

/-- State transition of one correlation operation. -/
def stepOp (st : ClientState) : ClientOp → ClientState
  | .callAsync => (call_async st).2
  | .waitResp rid arrival => (wait_response st rid arrival).2
  | .closeConn => (client_close st).1

/-- Replay a trace of correlation operations. -/
def runOps (st : ClientState) : List ClientOp → ClientState
  | [] => st
  | op :: ops => runOps (stepOp st op) ops

/-- The request ids allocated along a trace, in order. -/
def allocIds (st : ClientState) : List ClientOp → List Nat
  | [] => []
  | .callAsync :: ops => (call_async st).1 :: allocIds (stepOp st .callAsync) ops
  | op :: ops => allocIds (stepOp st op) ops

/-- The pending-map invariant: every outstanding id was allocated below
the current counter. -/
def ClientInv (st : ClientState) : Prop :=
  ∀ p ∈ st.pending, p.1 < st.next_id

/-! ## Client call timeout hint (src/client.py lines 158 to 170) -/

/-- In-memory Python values as passed to `RPCClient.call` for `meta`
before serialization.  `float` is again a payload-free tag: the modelled
code only ever applies `isinstance` to it.  `pynone` models Python
`None`, the default for the optional `meta` parameter. -/
inductive PyVal where
  | pynone
  | bool (b : Bool)
  | int (n : Int)
  | float
  | str (s : String)
  | list (xs : List PyVal)
  | dict (kvs : List (String × PyVal))

/-- Models `isinstance(x, int)` on a `PyVal`: Python `bool` is a subtype
of `int`, so booleans pass the check. -/
def pyIsInstInt : PyVal → Bool
  | .int _ => true
  | .bool _ => true
  | _ => false

/-- The integer value of a `PyVal` passing `pyIsInstInt` (`True` counts
as 1 and `False` as 0, as in Python). -/
def pyToInt : PyVal → Int
  | .int n => n
  | .bool b => if b then 1 else 0
  | _ => 0

/-- Models lines 165 to 169 of `RPCClient.call`: `timeout_ms` starts as
`None`; if `meta` is a dict, `maybe_timeout = meta.get("timeout_ms")` (a
missing key gives `None`), and only an `isinstance(..., int)` value is
kept.  The resulting `Option` is passed as the `timeout_ms` argument of
`wait_response`: `none` means the queue wait is unbounded
(`Queue.get(timeout=None)`), `some t` bounds it by `t / 1000` seconds. -/
def call_timeout_ms (meta : PyVal) : Option Int :=
  match meta with
  | .dict kvs =>
    let maybe := (List.lookup "timeout_ms" kvs).getD .pynone
    if pyIsInstInt maybe then some (pyToInt maybe) else none
  | _ => none

/-- Modelled from the claim: a bounded wait timeout is applied iff `meta`
is a mapping whose "timeout_ms" entry is an integer (Python's `int` type,
of which `bool` is a subtype), in which case that value in milliseconds
bounds the wait; every other shape is ignored. -/
def spec_timeout_hint (meta : PyVal) : Option Int :=
  match meta with
  | .dict kvs =>
    match List.lookup "timeout_ms" kvs with
    | some v => if pyIsInstInt v then some (pyToInt v) else none
    | none => none
  | _ => none

/-! ## The JSON text codec

`send_message` serializes with `json.dumps(payload)` and `recv_message`
parses with `json.loads`.  Both are modelled below on the
JSON-representable values of `Json`, following CPython's `json` package:
the serializer is `json.dumps` with its defaults (`ensure_ascii=True`,
separators `", "` and `": "`, `sort_keys=False`), the parser is the
`json.decoder` scanner (`py_scanstring`, `JSONObject`, `JSONArray`,
`scan_once`, `raw_decode`).  Two deliberate model boundaries, both
documented at the definitions they affect: float literals (a fraction or
exponent after an integer part, and the `NaN`/`Infinity` constants) make
the modelled parser return `none` where CPython builds a float, and
`chr(n)` of a lone surrogate (invalid Unicode, unrepresentable in a Lean
`Char`) falls back to `Char.ofNat`'s default.  Neither case can arise
while parsing the output of the modelled serializer. -/

/-- Whether the character is JSON whitespace (the `_w` regex of
`json.decoder`, i.e. space, tab, newline, carriage return). -/
def isWsChar (c : Char) : Bool :=
  c.toNat = 32 || c.toNat = 9 || c.toNat = 10 || c.toNat = 13

/-- Skip JSON whitespace (`_w(s, idx).end()`). -/
def skipWs (l : List Char) : List Char := l.dropWhile isWsChar

/-- ASCII decimal digit test. -/
def isDigitChar (c : Char) : Bool := 48 ≤ c.toNat && c.toNat ≤ 57

/-- The ASCII character of a decimal digit (`0` to `9`). -/
def digitChar : Nat → Char
  | 0 => '0'
  | 1 => '1'
  | 2 => '2'
  | 3 => '3'
  | 4 => '4'
  | 5 => '5'
  | 6 => '6'
  | 7 => '7'
  | 8 => '8'
  | _ => '9'

/-- The lowercase hex digit character of a value below 16, as produced by
the `%04x` formatting of `ensure_ascii` escapes. -/
def hexDigitChar : Nat → Char
  | 0 => '0'
  | 1 => '1'
  | 2 => '2'
  | 3 => '3'
  | 4 => '4'
  | 5 => '5'
  | 6 => '6'
  | 7 => '7'
  | 8 => '8'
  | 9 => '9'
  | 10 => 'a'
  | 11 => 'b'
  | 12 => 'c'
  | 13 => 'd'
  | 14 => 'e'
  | _ => 'f'

/-- The value of one hex digit as accepted by `_decode_uXXXX` (both cases
accepted; CPython's further `int()` leniencies such as embedded signs do
not apply to well-formed escapes and are not modelled). -/
def hexVal (c : Char) : Option Nat :=
  if 48 ≤ c.toNat && c.toNat ≤ 57 then some (c.toNat - 48)
  else if 97 ≤ c.toNat && c.toNat ≤ 102 then some (c.toNat - 87)
  else if 65 ≤ c.toNat && c.toNat ≤ 70 then some (c.toNat - 55)
  else none

/-- Four lowercase hex digits of a value below 65536 (`"\\u%04x" % n`). -/
def hex4 (n : Nat) : List Char :=
  [hexDigitChar (n / 4096 % 16), hexDigitChar (n / 256 % 16),
   hexDigitChar (n / 16 % 16), hexDigitChar (n % 16)]

/-- The combined value of four hex digits (`int(esc, 16)`). -/
def hex4Val (a b c d : Char) : Option Nat :=
  match hexVal a, hexVal b, hexVal c, hexVal d with
  | some w, some x, some y, some z => some (((w * 16 + x) * 16 + y) * 16 + z)
  | _, _, _, _ => none

/-- The `BACKSLASH` map of `py_scanstring`: the single-character escapes
a backslash may introduce. -/
def decodeEscape (e : Char) : Option Char :=
  if e = quot then some quot
  else if e = bslash then some bslash
  else if e = '/' then some '/'
  else if e = 'b' then some (Char.ofNat 8)
  else if e = 'f' then some (Char.ofNat 12)
  else if e = 'n' then some (Char.ofNat 10)
  else if e = 'r' then some (Char.ofNat 13)
  else if e = 't' then some (Char.ofNat 9)
  else none

/-- Models the per-character output of `py_encode_basestring_ascii` (the
`ensure_ascii=True` serializer): quote and backslash get their shortcut
escapes, as do the control characters `\b \t \n \f \r`; printable ASCII
(0x20 to 0x7e) passes through; every other character below 0x10000 becomes
one `\uXXXX` escape, and astral code points become a surrogate pair of
escapes. -/
def escapeChar (c : Char) : List Char :=
  if c = quot then [bslash, quot]
  else if c = bslash then [bslash, bslash]
  else if c.toNat = 8 then [bslash, 'b']
  else if c.toNat = 9 then [bslash, 't']
  else if c.toNat = 10 then [bslash, 'n']
  else if c.toNat = 12 then [bslash, 'f']
  else if c.toNat = 13 then [bslash, 'r']
  else if 32 ≤ c.toNat && c.toNat ≤ 126 then [c]
  else if c.toNat < 65536 then bslash :: 'u' :: hex4 c.toNat
  else
    (bslash :: 'u' :: hex4 (55296 + (c.toNat - 65536) / 1024)) ++
      (bslash :: 'u' :: hex4 (56320 + (c.toNat - 65536) % 1024))

/-- Escape every character of a string body. -/
def escapeList : List Char → List Char
  | [] => []
  | c :: cs => escapeChar c ++ escapeList cs

/-- The serialized form of a JSON string: quote, escaped body, quote. -/
def encodeString (s : String) : List Char :=
  quot :: (escapeList s.data ++ [quot])

/-- Decimal digit characters of a positive number, most significant
first; the first argument is fuel (any amount at least the number
suffices, and the wrapper below passes the number itself). -/
def natDigitsAux : Nat → Nat → List Char
  | 0, _ => []
  | fuel + 1, n =>
    if n = 0 then [] else natDigitsAux fuel (n / 10) ++ [digitChar (n % 10)]

/-- The decimal digits of a natural number, most significant first
(Python `repr` of a nonnegative int). -/
def natToChars (n : Nat) : List Char :=
  if n = 0 then [digitChar 0] else natDigitsAux n n

/-- The decimal text of a Python int, with a leading minus sign when
negative. -/
def intToChars (n : Int) : List Char :=
  if n < 0 then '-' :: natToChars n.natAbs else natToChars n.toNat

mutual
/-- Models `json.dumps` with its default separators on a `Json` value,
producing the character list of the serialized text; `none` exactly when
the value contains a float (see the module comment). -/
def dumpsVal : Json → Option (List Char)
  | .null => some ['n', 'u', 'l', 'l']
  | .bool true => some ['t', 'r', 'u', 'e']
  | .bool false => some ['f', 'a', 'l', 's', 'e']
  | .int n => some (intToChars n)
  | .float => none
  | .str s => some (encodeString s)
  | .arr [] => some ['[', ']']
  | .arr (x :: xs) =>
    match dumpsVal x, dumpsElems xs with
    | some sx, some sxs => some ('[' :: (sx ++ sxs ++ [']']))
    | _, _ => none
  | .obj [] => some ['{', '}']
  | .obj ((k, v) :: kvs) =>
    match dumpsVal v, dumpsMembers kvs with
    | some sv, some skvs =>
      some ('{' :: (encodeString k ++ ':' :: ' ' :: sv ++ skvs ++ ['}']))
    | _, _ => none

/-- The remaining array elements, each preceded by the `", "` item
separator. -/
def dumpsElems : List Json → Option (List Char)
  | [] => some []
  | x :: xs =>
    match dumpsVal x, dumpsElems xs with
    | some sx, some sxs => some (',' :: ' ' :: (sx ++ sxs))
    | _, _ => none

/-- The remaining object members, each preceded by the `", "` item
separator, with the `": "` key separator inside. -/
def dumpsMembers : List (String × Json) → Option (List Char)
  | [] => some []
  | (k, v) :: kvs =>
    match dumpsVal v, dumpsMembers kvs with
    | some sv, some skvs =>
      some (',' :: ' ' :: (encodeString k ++ ':' :: ' ' :: sv ++ skvs))
    | _, _ => none
end

/-- Models `json.dumps(payload)` as called by `send_message`. -/
def json_dumps (v : Json) : Option (List Char) := dumpsVal v

/-- Fuel-indexed body of `py_scanstring`; the fuel only bounds the
number of scanner steps, each of which consumes at least one input
character, so the wrapper's `length + 1` always suffices.  Scans from the
first character after the opening quote and returns the decoded string
body and the text after the closing quote.  Faithful to the CPython
scanner: raw control characters are rejected (`strict=True`), a backslash
introduces either a one-character escape or a `\uXXXX` escape, and a
high-surrogate escape immediately followed by a low-surrogate escape is
recombined into one astral character.  A high surrogate not so followed
yields Python `chr(surrogate)` — a lone surrogate, invalid Unicode —
modelled by `Char.ofNat`'s fallback; unreachable from serializer
output. -/
def scanStringF : Nat → List Char → Option (List Char × List Char)
  | 0, _ => none
  | _ + 1, [] => none
  | fuel + 1, c :: rest =>
    if c = quot then some ([], rest)
    else if c = bslash then
      match rest with
      | [] => none
      | e :: r2 =>
        if e = 'u' then
          match r2 with
          | a :: b :: c2 :: d :: r3 =>
            (match hex4Val a b c2 d with
             | none => none
             | some n =>
               if 55296 ≤ n ∧ n ≤ 56319 then
                 match r3 with
                 | e2 :: u2 :: a2 :: b2 :: c3 :: d2 :: r4 =>
                   if e2 = bslash ∧ u2 = 'u' then
                     match hex4Val a2 b2 c3 d2 with
                     | none => none
                     | some m =>
                       if 56320 ≤ m ∧ m ≤ 57343 then
                         (match scanStringF fuel r4 with
                          | some (cs, r) =>
                            some (Char.ofNat
                              (65536 + (n - 55296) * 1024 + (m - 56320)) :: cs,
                              r)
                          | none => none)
                       else
                         (match scanStringF fuel
                             (e2 :: u2 :: a2 :: b2 :: c3 :: d2 :: r4) with
                          | some (cs, r) => some (Char.ofNat n :: cs, r)
                          | none => none)
                   else
                     (match scanStringF fuel
                         (e2 :: u2 :: a2 :: b2 :: c3 :: d2 :: r4) with
                      | some (cs, r) => some (Char.ofNat n :: cs, r)
                      | none => none)
                 | e2 :: u2 :: short =>
                   if e2 = bslash ∧ u2 = 'u' then none
                   else
                     (match scanStringF fuel (e2 :: u2 :: short) with
                      | some (cs, r) => some (Char.ofNat n :: cs, r)
                      | none => none)
                 | short =>
                   (match scanStringF fuel short with
                    | some (cs, r) => some (Char.ofNat n :: cs, r)
                    | none => none)
               else
                 (match scanStringF fuel r3 with
                  | some (cs, r) => some (Char.ofNat n :: cs, r)
                  | none => none))
          | _ => none
        else
          match decodeEscape e with
          | some ch =>
            (match scanStringF fuel r2 with
             | some (cs, r) => some (ch :: cs, r)
             | none => none)
          | none => none
    else if c.toNat < 32 then none
    else
      match scanStringF fuel rest with
      | some (cs, r) => some (c :: cs, r)
      | none => none

/-- Models `py_scanstring` (see `scanStringF`). -/
def scanString (l : List Char) : Option (List Char × List Char) :=
  scanStringF (l.length + 1) l

/-- The value of a run of decimal digit characters, most significant
first. -/
def digitsVal (ds : List Char) : Nat :=
  ds.foldl (fun a c => 10 * a + (c.toNat - 48)) 0

/-- Models the integer part of the `NUMBER_RE` match (`0|[1-9]\d*`): a
leading zero matches alone; otherwise the maximal digit run is taken. -/
def parseUIntPart : List Char → Option (Nat × List Char)
  | [] => none
  | c :: rest =>
    if c.toNat = 48 then some (0, rest)
    else if isDigitChar c then
      some (digitsVal (c :: rest.takeWhile isDigitChar),
            rest.dropWhile isDigitChar)
    else none

/-- Whether the head of the remaining text is a digit. -/
def headIsDigit : List Char → Bool
  | c :: _ => isDigitChar c
  | [] => false

/-- Whether `NUMBER_RE` would extend the match with a fraction
(`\.\d+`) or exponent (`[eE][-+]?\d+`) part, making the scanned number a
Python float. -/
def floatFollows : List Char → Bool
  | [] => false
  | c :: rest =>
    if c = '.' then headIsDigit rest
    else if c = 'e' || c = 'E' then
      match rest with
      | [] => false
      | d :: rest2 =>
        if d = '+' || d = '-' then headIsDigit rest2 else isDigitChar d
    else false

/-- Models the number arm of `scan_once` for text starting with a digit
or a minus sign.  Where CPython would build a float (a fraction or
exponent part follows the integer part, or an `Infinity` constant after
the minus sign) the model returns `none`: floats are outside the
embedding, and serializer output never produces these shapes. -/
def parseNumAt : List Char → Option (Json × List Char)
  | [] => none
  | c :: rest =>
    if c = '-' then
      match parseUIntPart rest with
      | some (m, r) =>
        if floatFollows r then none else some (.int (-(m : Int)), r)
      | none => none
    else
      match parseUIntPart (c :: rest) with
      | some (m, r) =>
        if floatFollows r then none else some (.int (m : Int), r)
      | none => none

/-- Whether a character cannot extend a just-scanned decimal integer: not
a digit and not a fraction or exponent introducer. -/
def numDelimChar (c : Char) : Bool :=
  !(isDigitChar c) && !(c = '.') && !(c = 'e') && !(c = 'E')

/-- Whether the text cannot extend a just-scanned decimal integer.  This
holds at every position where the serializer places something after a
number (a separator, a closing bracket, or the end of the text). -/
def numDelim : List Char → Bool
  | [] => true
  | c :: _ => numDelimChar c

mutual
/-- Models `scan_once` of the CPython JSON scanner, with enough fuel as
an explicit termination measure (each nested scan uses one unit; callers
supply the input length, which always suffices).  Dispatches on the first
character: string, object, array, the three keyword literals, or a
number.  The `NaN`/`Infinity`/`-Infinity` float constants are outside the
embedding (see `parseNumAt`). -/
def parseValue : Nat → List Char → Option (Json × List Char)
  | 0, _ => none
  | _ + 1, [] => none
  | fuel + 1, c :: rest =>
    if c = quot then
      match scanString rest with
      | some (cs, r) => some (.str ⟨cs⟩, r)
      | none => none
    else if c = '{' then
      match skipWs rest with
      | [] => none
      | c2 :: r2 =>
        if c2 = '}' then some (.obj [], r2)
        else
          match parseMembers fuel (c2 :: r2) with
          | some (kvs, r) => some (.obj (pyDictPairs kvs), r)
          | none => none
    else if c = '[' then
      match skipWs rest with
      | [] => none
      | c2 :: r2 =>
        if c2 = ']' then some (.arr [], r2)
        else
          match parseElems fuel (c2 :: r2) with
          | some (xs, r) => some (.arr xs, r)
          | none => none
    else if c = 'n' then
      match rest with
      | 'u' :: 'l' :: 'l' :: r => some (.null, r)
      | _ => none
    else if c = 't' then
      match rest with
      | 'r' :: 'u' :: 'e' :: r => some (.bool true, r)
      | _ => none
    else if c = 'f' then
      match rest with
      | 'a' :: 'l' :: 's' :: 'e' :: r => some (.bool false, r)
      | _ => none
    else if c = '-' || isDigitChar c then parseNumAt (c :: rest)
    else none

/-- Models the `JSONArray` loop from the first element (whitespace after
the bracket already skipped, next character known not to be `]`): scan a
value, skip whitespace, then either close on `]` or consume `", "` and
continue. -/
def parseElems : Nat → List Char → Option (List Json × List Char)
  | 0, _ => none
  | fuel + 1, input =>
    match parseValue fuel input with
    | none => none
    | some (v, r1) =>
      match skipWs r1 with
      | [] => none
      | c :: r2 =>
        if c = ']' then some ([v], r2)
        else if c = ',' then
          match parseElems fuel (skipWs r2) with
          | some (vs, r3) => some (v :: vs, r3)
          | none => none
        else none

/-- Models the `JSONObject` loop from the first member (whitespace after
the brace already skipped, next character known not to be `}`): a quoted
key, whitespace, `:`, whitespace, a value, whitespace, then either close
on `}` or consume `,` plus whitespace and continue.  The caller applies
the dict construction (`pyDictPairs`) to the member list exactly as the
scanner assigns `pairs[key] = value` in document order. -/
def parseMembers : Nat → List Char → Option (List (String × Json) × List Char)
  | 0, _ => none
  | fuel + 1, input =>
    match input with
    | [] => none
    | c :: r0 =>
      if c = quot then
        match scanString r0 with
        | none => none
        | some (kcs, r1) =>
          match skipWs r1 with
          | [] => none
          | c2 :: r2 =>
            if c2 = ':' then
              match parseValue fuel (skipWs r2) with
              | none => none
              | some (v, r3) =>
                match skipWs r3 with
                | [] => none
                | c3 :: r4 =>
                  if c3 = '}' then some ([(⟨kcs⟩, v)], r4)
                  else if c3 = ',' then
                    match parseMembers fuel (skipWs r4) with
                    | some (kvs, r5) => some ((⟨kcs⟩, v) :: kvs, r5)
                    | none => none
                  else none
            else none
      else none
end

/-- Models `json.loads` as called by `recv_message`: skip leading
whitespace, scan one value (`raw_decode`), then require only whitespace
to remain (else CPython raises "Extra data").  The input length plus one
always exceeds the fuel any successful scan consumes. -/
def json_loads (input : List Char) : Option Json :=
  match parseValue (input.length + 1) (skipWs input) with
  | some (v, rest) => if skipWs rest = [] then some v else none
  | none => none

/-! ## Framing (src/protocol.py lines 42 to 64)

The byte stream is a `List Nat` of byte values.  `str.encode("utf-8")`
and `bytes.decode("utf-8")` are modelled as the code-point map in each
direction, which is exactly UTF-8 on the ASCII-only texts that the
`ensure_ascii` serializer produces (`dumpsVal_ascii` below). -/

/-- Models `struct.pack(">I", n)`: four big-endian bytes; `struct.error`
(here `none`) if the length does not fit an unsigned 32-bit integer. -/
def packU32BE (n : Nat) : Option (List Nat) :=
  if n < 4294967296 then
    some [n / 16777216 % 256, n / 65536 % 256, n / 256 % 256, n % 256]
  else none

/-- Models `struct.unpack(">I", header)`. -/
def unpackU32BE (b : List Nat) : Option Nat :=
  match b with
  | [b0, b1, b2, b3] => some (((b0 * 256 + b1) * 256 + b2) * 256 + b3)
  | _ => none

/-- Models `raw.encode` on ASCII serializer output. -/
def bytesOfText (s : List Char) : List Nat := s.map Char.toNat

/-- Models `raw.decode("utf-8")` on ASCII bytes. -/
def textOfBytes (bs : List Nat) : List Char := bs.map Char.ofNat

/-- Models `send_message(sock, payload)` (protocol.py lines 42 to 45,
identical to `_send_message` in rpc.py): serialize to JSON text, UTF-8
encode, prepend the 4-byte big-endian length, and write header plus
payload to the stream. -/
def send_message (payload : Json) : Option (List Nat) :=
  match json_dumps payload with
  | none => none
  | some txt =>
    let raw := bytesOfText txt
    match packU32BE raw.length with
    | some header => some (header ++ raw)
    | none => none

/-- Models `recv_exact(sock, nbytes)` (protocol.py lines 48 to 57): read
exactly `nbytes` from the stream, or fail with `ConnectionError` (here
`none`) when the stream closes first. -/
def recv_exact (stream : List Nat) (nbytes : Nat) :
    Option (List Nat × List Nat) :=
  if nbytes ≤ stream.length then some (stream.take nbytes, stream.drop nbytes)
  else none

/-- Models `recv_message(sock)` (protocol.py lines 60 to 64, identical to
`_recv_message` in rpc.py): read the 4-byte header, unpack the length,
read that many payload bytes, UTF-8 decode and JSON parse them.  Returns
the decoded payload and the unconsumed remainder of the stream. -/
def recv_message (stream : List Nat) : Option (Json × List Nat) :=
  match recv_exact stream 4 with
  | none => none
  | some (header, rest) =>
    match unpackU32BE header with
    | none => none
    | some len =>
      match recv_exact rest len with
      | none => none
      | some (raw, rest2) =>
        match json_loads (textOfBytes raw) with
        | some v => some (v, rest2)
        | none => none

theorem char_eq_of_toNat_eq {c d : Char} (h : c.toNat = d.toNat) : c = d := by
  have hc := Char.ofNat_toNat c
  have hd := Char.ofNat_toNat d
  rw [← hc, ← hd, h]

theorem char_not_surrogate (c : Char) :
    c.toNat < 55296 ∨ (57343 < c.toNat ∧ c.toNat < 1114112) := c.valid

theorem skipWs_not_ws {c : Char} (t : List Char) (h : isWsChar c = false) :
    skipWs (c :: t) = c :: t := by
  simp [skipWs, List.dropWhile, h]

theorem skipWs_space (t : List Char) : skipWs (' ' :: t) = skipWs t := by
  simp [skipWs, List.dropWhile, isWsChar]

theorem takeWhile_all_append (p : Char → Bool) (l1 l2 : List Char)
    (h1 : ∀ c ∈ l1, p c = true)
    (h2 : ∀ c t, l2 = c :: t → p c = false) :
    (l1 ++ l2).takeWhile p = l1 ∧ (l1 ++ l2).dropWhile p = l2 := by
  induction l1 with
  | nil =>
    cases l2 with
    | nil => simp
    | cons c t => simp [List.takeWhile, List.dropWhile, h2 c t rfl]
  | cons a l ih =>
    have ha : p a = true := h1 a (by simp)
    have := ih (fun c hc => h1 c (by simp [hc]))
    simp [List.takeWhile, List.dropWhile, ha, this.1, this.2]

theorem digitChar_toNat {d : Nat} (h : d < 10) : (digitChar d).toNat = 48 + d := by
  interval_cases d <;> decide

theorem digitChar_isDigit {d : Nat} (h : d < 10) : isDigitChar (digitChar d) = true := by
  interval_cases d <;> decide

theorem natDigitsAux_eq_digits (fuel : Nat) :
    ∀ n, n ≤ fuel → natDigitsAux fuel n = (Nat.digits 10 n).reverse.map digitChar := by
  induction fuel with
  | zero =>
    intro n hn
    have : n = 0 := by omega
    subst this
    simp [natDigitsAux]
  | succ f ih =>
    intro n hn
    by_cases h0 : n = 0
    · subst h0; simp [natDigitsAux]
    · have hdiv : n / 10 ≤ f := by
        have := Nat.div_lt_self (Nat.pos_of_ne_zero h0) (by norm_num : (1 : Nat) < 10)
        omega
      have hdig : Nat.digits 10 n = n % 10 :: Nat.digits 10 (n / 10) :=
        Nat.digits_def' (by norm_num : (1 : Nat) < 10) (Nat.pos_of_ne_zero h0)
      simp [natDigitsAux, h0, ih ((n : Nat) / 10) hdiv, hdig]

theorem natToChars_all_digits (n : Nat) :
    ∀ c ∈ natToChars n, isDigitChar c = true := by
  intro c hc
  unfold natToChars at hc
  by_cases h0 : n = 0
  · simp [h0] at hc
    subst hc
    decide
  · rw [if_neg h0, natDigitsAux_eq_digits n n (le_refl n)] at hc
    simp only [List.mem_map, List.mem_reverse] at hc
    obtain ⟨d, hd, rfl⟩ := hc
    exact digitChar_isDigit (Nat.digits_lt_base (by norm_num) hd)

theorem natToChars_cons (n : Nat) :
    ∃ c cs, natToChars n = c :: cs ∧ isDigitChar c = true ∧
      (n ≠ 0 → c.toNat ≠ 48) := by
  by_cases h0 : n = 0
  · subst h0
    exact ⟨digitChar 0, [], rfl, by decide, by simp⟩
  · have hne : Nat.digits 10 n ≠ [] := Nat.digits_ne_nil_iff_ne_zero.mpr h0
    have heq : natToChars n = (Nat.digits 10 n).reverse.map digitChar := by
      unfold natToChars
      rw [if_neg h0, natDigitsAux_eq_digits n n (le_refl n)]
    obtain ⟨d, ds, hds⟩ := List.exists_cons_of_ne_nil
      (by simp [hne] : (Nat.digits 10 n).reverse ≠ [])
    have hdmem : d ∈ Nat.digits 10 n := by
      have : d ∈ (Nat.digits 10 n).reverse := by simp [hds]
      simpa using this
    have hd10 : d < 10 := Nat.digits_lt_base (by norm_num) hdmem
    have hdlast : d ≠ 0 := by
      have hl : (Nat.digits 10 n).getLast hne ≠ 0 :=
        Nat.getLast_digit_ne_zero 10 h0
      have : (Nat.digits 10 n).getLast? = some d := by
        rw [← List.head?_reverse, hds]
        rfl
      rw [List.getLast?_eq_getLast _ hne] at this
      simp only [Option.some.injEq] at this
      omega
    refine ⟨digitChar d, ds.map digitChar, by simp [heq, hds], digitChar_isDigit hd10, ?_⟩
    intro _
    rw [digitChar_toNat hd10]
    omega

theorem digitsVal_natToChars (n : Nat) : digitsVal (natToChars n) = n := by
  by_cases h0 : n = 0
  · subst h0; decide
  · have heq : natToChars n = (Nat.digits 10 n).reverse.map digitChar := by
      unfold natToChars
      rw [if_neg h0, natDigitsAux_eq_digits n n (le_refl n)]
    rw [heq]
    unfold digitsVal
    rw [List.map_reverse, List.foldl_reverse, List.foldr_map]
    have hall : ∀ d ∈ Nat.digits 10 n, d < 10 :=
      fun d hd => Nat.digits_lt_base (by norm_num) hd
    have : ∀ (l : List Nat), (∀ d ∈ l, d < 10) →
        l.foldr (fun c a => 10 * a + ((digitChar c).toNat - 48)) 0 =
          Nat.ofDigits 10 l := by
      intro l
      induction l with
      | nil => simp [Nat.ofDigits]
      | cons d ds ih =>
        intro hl
        have hd : d < 10 := hl d (by simp)
        rw [List.foldr_cons, ih (fun x hx => hl x (by simp [hx])),
          Nat.ofDigits_cons, digitChar_toNat hd]
        omega
    rw [this _ hall, Nat.ofDigits_digits]

theorem headIsDigit_of_numDelim {rest : List Char} (h : numDelim rest = true) :
    headIsDigit rest = false := by
  cases rest with
  | nil => rfl
  | cons c t =>
    simp [numDelim, numDelimChar] at h
    simp [headIsDigit, h.1]

theorem floatFollows_of_numDelim {rest : List Char} (h : numDelim rest = true) :
    floatFollows rest = false := by
  cases rest with
  | nil => rfl
  | cons c t =>
    simp [numDelim, numDelimChar] at h
    obtain ⟨⟨⟨h1, h2⟩, h3⟩, h4⟩ := h
    simp [floatFollows, h2, h3, h4]

theorem parseUIntPart_natToChars (n : Nat) (rest : List Char)
    (hrest : headIsDigit rest = false) :
    parseUIntPart (natToChars n ++ rest) = some (n, rest) := by
  obtain ⟨c, cs, hcons, hdig, hne⟩ := natToChars_cons n
  by_cases h0 : n = 0
  · subst h0
    have : natToChars 0 = ['0'] := by decide
    rw [this]
    simp [parseUIntPart]
  · have hc48 : ¬ c.toNat = 48 := hne h0
    have hcsdig : ∀ x ∈ cs, isDigitChar x = true := by
      intro x hx
      exact natToChars_all_digits n x (by rw [hcons]; simp [hx])
    have hrest2 : ∀ x t, rest = x :: t → isDigitChar x = false := by
      intro x t hxt
      rw [hxt] at hrest
      simpa [headIsDigit] using hrest
    obtain ⟨htake, hdrop⟩ :=
      takeWhile_all_append isDigitChar cs rest hcsdig hrest2
    rw [hcons]
    simp only [List.cons_append, parseUIntPart, hc48, if_false, hdig, if_true]
    rw [htake, hdrop]
    have : digitsVal (c :: cs) = n := by rw [← hcons]; exact digitsVal_natToChars n
    simp [this]

theorem parseNumAt_intToChars (n : Int) (rest : List Char)
    (h : numDelim rest = true) :
    parseNumAt (intToChars n ++ rest) = some (.int n, rest) := by
  have hhd := headIsDigit_of_numDelim h
  have hff := floatFollows_of_numDelim h
  by_cases hneg : n < 0
  · have : intToChars n = '-' :: natToChars n.natAbs := by
      unfold intToChars
      rw [if_pos hneg]
    rw [this]
    have h2 : -((n.natAbs : Nat) : Int) = n := by omega
    simp only [List.cons_append, parseNumAt, if_pos rfl,
      parseUIntPart_natToChars n.natAbs rest hhd, hff, h2]
    simp
  · have heq : intToChars n = natToChars n.toNat := by
      unfold intToChars
      rw [if_neg hneg]
    obtain ⟨c, cs, hcons, hdig, _⟩ := natToChars_cons n.toNat
    have hcne : ¬ c = '-' := by
      intro hc
      rw [hc] at hdig
      exact absurd hdig (by decide)
    rw [heq, hcons]
    simp only [List.cons_append, parseNumAt, hcne, if_false]
    rw [← List.cons_append, ← hcons,
      parseUIntPart_natToChars n.toNat rest hhd]
    simp only [hff]
    have h2 : ((n.toNat : Nat) : Int) = n := by omega
    rw [h2]
    simp

theorem hexVal_hexDigitChar {k : Nat} (h : k < 16) :
    hexVal (hexDigitChar k) = some k := by
  interval_cases k <;> decide

theorem hex4Val_hex4 {n : Nat} (h : n < 65536) :
    hex4Val (hexDigitChar (n / 4096 % 16)) (hexDigitChar (n / 256 % 16))
      (hexDigitChar (n / 16 % 16)) (hexDigitChar (n % 16)) = some n := by
  rw [hex4Val, hexVal_hexDigitChar (Nat.mod_lt _ (by norm_num)),
    hexVal_hexDigitChar (Nat.mod_lt _ (by norm_num)),
    hexVal_hexDigitChar (Nat.mod_lt _ (by norm_num)),
    hexVal_hexDigitChar (Nat.mod_lt _ (by norm_num))]
  simp only [Option.some.injEq]
  omega

theorem escapeChar_length_pos (c : Char) : 1 ≤ (escapeChar c).length := by
  unfold escapeChar
  split_ifs <;> simp [hex4]

theorem escapeList_length_ge (cs : List Char) :
    cs.length ≤ (escapeList cs).length := by
  induction cs with
  | nil => simp [escapeList]
  | cons c cs ih =>
    have := escapeChar_length_pos c
    simp only [escapeList, List.length_append, List.length_cons]
    omega

theorem scanStringF_unicode_step (f : Nat) (n : Nat) (hn : n < 65536)
    (hns : ¬ (55296 ≤ n ∧ n ≤ 56319)) (tail : List Char) :
    scanStringF (f + 1) ((bslash :: 'u' :: hex4 n) ++ tail) =
      match scanStringF f tail with
      | some (cs, r) => some (Char.ofNat n :: cs, r)
      | none => none := by
  simp [scanStringF, hex4, hex4Val_hex4 hn, hns,
    (show ¬ bslash = quot by decide)]

theorem scanStringF_surrogate_step (f hi lo : Nat) (hhi : hi < 65536)
    (hlo : lo < 65536) (hhg1 : 55296 ≤ hi) (hhg2 : hi ≤ 56319)
    (hlg1 : 56320 ≤ lo) (hlg2 : lo ≤ 57343) (tail : List Char) :
    scanStringF (f + 1)
        ((bslash :: 'u' :: hex4 hi) ++ ((bslash :: 'u' :: hex4 lo) ++ tail)) =
      match scanStringF f tail with
      | some (cs, r) =>
        some (Char.ofNat (65536 + (hi - 55296) * 1024 + (lo - 56320)) :: cs, r)
      | none => none := by
  simp [scanStringF, hex4, hex4Val_hex4 hhi, hex4Val_hex4 hlo,
    hhg1, hhg2, hlg1, hlg2, (show ¬ bslash = quot by decide)]

set_option maxRecDepth 10000 in
theorem scanStringF_escapeList :
    ∀ (cs : List Char) (rest : List Char) (fuel : Nat), cs.length < fuel →
      scanStringF fuel (escapeList cs ++ (quot :: rest)) = some (cs, rest) := by
  intro cs
  induction cs with
  | nil =>
    intro rest fuel hf
    cases fuel with
    | zero => omega
    | succ f => simp [escapeList, scanStringF]
  | cons c cs ih =>
    intro rest fuel hf
    cases fuel with
    | zero => simp at hf
    | succ f =>
      have hfs : cs.length < f := by simp at hf; omega
      have IH := ih rest f hfs
      have hunf : escapeList (c :: cs) ++ (quot :: rest) =
          escapeChar c ++ (escapeList cs ++ (quot :: rest)) := by
        simp [escapeList]
      rw [hunf]
      by_cases h1 : c = quot
      · subst h1
        have hesc : escapeChar quot = [bslash, quot] := by decide
        rw [hesc]
        simp [scanStringF, IH,
          (show ¬ bslash = quot by decide),
          (show ¬ quot = 'u' by decide),
          (show decodeEscape quot = some quot by decide)]
      · by_cases h2 : c = bslash
        · subst h2
          have hesc : escapeChar bslash = [bslash, bslash] := by decide
          rw [hesc]
          simp [scanStringF, IH,
            (show ¬ bslash = quot by decide),
            (show ¬ bslash = 'u' by decide),
            (show decodeEscape bslash = some bslash by decide)]
        · by_cases h3 : c.toNat = 8
          · have hc : c = Char.ofNat 8 := by rw [← Char.ofNat_toNat c, h3]
            have hesc : escapeChar c = [bslash, 'b'] := by subst hc; decide
            rw [hesc]
            simp [scanStringF, IH, hc,
              (show ¬ bslash = quot by decide),
              (show ¬ ('b' : Char) = 'u' by decide),
              (show decodeEscape 'b' = some (Char.ofNat 8) by decide)]
          · by_cases h4 : c.toNat = 9
            · have hc : c = Char.ofNat 9 := by rw [← Char.ofNat_toNat c, h4]
              have hesc : escapeChar c = [bslash, 't'] := by subst hc; decide
              rw [hesc]
              simp [scanStringF, IH, hc,
                (show ¬ bslash = quot by decide),
                (show ¬ ('t' : Char) = 'u' by decide),
                (show decodeEscape 't' = some (Char.ofNat 9) by decide)]
            · by_cases h5 : c.toNat = 10
              · have hc : c = Char.ofNat 10 := by rw [← Char.ofNat_toNat c, h5]
                have hesc : escapeChar c = [bslash, 'n'] := by subst hc; decide
                rw [hesc]
                simp [scanStringF, IH, hc,
                  (show ¬ bslash = quot by decide),
                  (show ¬ ('n' : Char) = 'u' by decide),
                  (show decodeEscape 'n' = some (Char.ofNat 10) by decide)]
              · by_cases h6 : c.toNat = 12
                · have hc : c = Char.ofNat 12 := by
                    rw [← Char.ofNat_toNat c, h6]
                  have hesc : escapeChar c = [bslash, 'f'] := by subst hc; decide
                  rw [hesc]
                  simp [scanStringF, IH, hc,
                    (show ¬ bslash = quot by decide),
                    (show ¬ ('f' : Char) = 'u' by decide),
                    (show decodeEscape 'f' = some (Char.ofNat 12) by decide)]
                · by_cases h7 : c.toNat = 13
                  · have hc : c = Char.ofNat 13 := by
                      rw [← Char.ofNat_toNat c, h7]
                    have hesc : escapeChar c = [bslash, 'r'] := by
                      subst hc; decide
                    rw [hesc]
                    simp [scanStringF, IH, hc,
                      (show ¬ bslash = quot by decide),
                      (show ¬ ('r' : Char) = 'u' by decide),
                      (show decodeEscape 'r' = some (Char.ofNat 13) by decide)]
                  · by_cases h8 : 32 ≤ c.toNat ∧ c.toNat ≤ 126
                    · have hesc : escapeChar c = [c] := by
                        unfold escapeChar
                        rw [if_neg h1, if_neg h2, if_neg h3, if_neg h4,
                          if_neg h5, if_neg h6, if_neg h7,
                          if_pos (by simp [h8.1, h8.2])]
                      rw [hesc]
                      simp [scanStringF, IH, h1, h2,
                        (show ¬ c.toNat < 32 by omega)]
                    · by_cases h9 : c.toNat < 65536
                      · have hesc : escapeChar c =
                            bslash :: 'u' :: hex4 c.toNat := by
                          unfold escapeChar
                          rw [if_neg h1, if_neg h2, if_neg h3, if_neg h4,
                            if_neg h5, if_neg h6, if_neg h7,
                            if_neg (by simpa using h8), if_pos h9]
                        rw [hesc]
                        have hguard : ¬ (55296 ≤ c.toNat ∧ c.toNat ≤ 56319) := by
                          rcases char_not_surrogate c with h | h <;> omega
                        rw [List.cons_append, List.cons_append,
                          ← List.cons_append, ← List.cons_append,
                          scanStringF_unicode_step f c.toNat h9 hguard, IH,
                          Char.ofNat_toNat]
                      · have h65 : 65536 ≤ c.toNat := by omega
                        have hlt : c.toNat < 1114112 :=
                          ((char_not_surrogate c).resolve_left (by omega)).2
                        have hesc : escapeChar c =
                            (bslash :: 'u' ::
                              hex4 (55296 + (c.toNat - 65536) / 1024)) ++
                              (bslash :: 'u' ::
                                hex4 (56320 + (c.toNat - 65536) % 1024)) := by
                          unfold escapeChar
                          rw [if_neg h1, if_neg h2, if_neg h3, if_neg h4,
                            if_neg h5, if_neg h6, if_neg h7,
                            if_neg (by simpa using h8), if_neg h9]
                        rw [hesc, List.append_assoc,
                          scanStringF_surrogate_step f _ _ (by omega) (by omega)
                            (by omega) (by omega) (by omega) (by omega), IH]
                        rw [(by omega : 65536 +
                          (55296 + (c.toNat - 65536) / 1024 - 55296) * 1024 +
                            (56320 + (c.toNat - 65536) % 1024 - 56320) =
                          c.toNat), Char.ofNat_toNat]

theorem scanString_escapeList (cs rest : List Char) :
    scanString (escapeList cs ++ (quot :: rest)) = some (cs, rest) := by
  unfold scanString
  apply scanStringF_escapeList
  have := escapeList_length_ge cs
  simp only [List.length_append, List.length_cons]
  omega

theorem isDigit_head_facts {c : Char} (h : isDigitChar c = true) :
    isWsChar c = false ∧ ¬ c = ']' := by
  constructor
  · simp only [isDigitChar, Bool.and_eq_true, decide_eq_true_eq] at h
    simp only [isWsChar]
    simp only [Bool.or_eq_false_iff, decide_eq_false_iff_not]
    omega
  · intro hc
    rw [hc] at h
    exact absurd h (by decide)

theorem dumpsVal_shape {v : Json} {s : List Char} (h : dumpsVal v = some s) :
    ∃ c cs, s = c :: cs ∧ isWsChar c = false ∧ ¬ c = ']' := by
  cases v with
  | null =>
    simp only [dumpsVal, Option.some.injEq] at h
    exact ⟨'n', _, h.symm, by decide, by decide⟩
  | bool b =>
    cases b with
    | true =>
      simp only [dumpsVal, Option.some.injEq] at h
      exact ⟨'t', _, h.symm, by decide, by decide⟩
    | false =>
      simp only [dumpsVal, Option.some.injEq] at h
      exact ⟨'f', _, h.symm, by decide, by decide⟩
  | int n =>
    simp only [dumpsVal, Option.some.injEq] at h
    subst h
    unfold intToChars
    by_cases hneg : n < 0
    · rw [if_pos hneg]
      exact ⟨'-', _, rfl, by decide, by decide⟩
    · rw [if_neg hneg]
      obtain ⟨c, cs, hcons, hdig, _⟩ := natToChars_cons n.toNat
      obtain ⟨hws, hbr⟩ := isDigit_head_facts hdig
      exact ⟨c, cs, hcons, hws, hbr⟩
  | float => simp [dumpsVal] at h
  | str s2 =>
    simp only [dumpsVal, Option.some.injEq] at h
    subst h
    exact ⟨quot, _, rfl, by decide, by decide⟩
  | arr xs =>
    cases xs with
    | nil =>
      simp only [dumpsVal, Option.some.injEq] at h
      exact ⟨'[', _, h.symm, by decide, by decide⟩
    | cons x xs2 =>
      cases hx : dumpsVal x with
      | none => rw [dumpsVal, hx] at h; simp at h
      | some sx =>
        cases hxs : dumpsElems xs2 with
        | none => rw [dumpsVal, hx, hxs] at h; simp at h
        | some sxs =>
          rw [dumpsVal, hx, hxs] at h
          simp only [Option.some.injEq] at h
          exact ⟨'[', _, h.symm, by decide, by decide⟩
  | obj kvs =>
    cases kvs with
    | nil =>
      simp only [dumpsVal, Option.some.injEq] at h
      exact ⟨'{', _, h.symm, by decide, by decide⟩
    | cons kv kvs2 =>
      obtain ⟨k, v2⟩ := kv
      cases hv : dumpsVal v2 with
      | none => rw [dumpsVal, hv] at h; simp at h
      | some sv =>
        cases hkvs : dumpsMembers kvs2 with
        | none => rw [dumpsVal, hv, hkvs] at h; simp at h
        | some skvs =>
          rw [dumpsVal, hv, hkvs] at h
          simp only [Option.some.injEq] at h
          exact ⟨'{', _, h.symm, by decide, by decide⟩

theorem dumpsVal_skipWs {v : Json} {s : List Char} (h : dumpsVal v = some s)
    (t : List Char) : skipWs (s ++ t) = s ++ t := by
  obtain ⟨c, cs, hcons, hws, _⟩ := dumpsVal_shape h
  rw [hcons, List.cons_append]
  exact skipWs_not_ws _ hws

theorem dumpsElems_inv {xs : List Json} {sxs : List Char}
    (h : dumpsElems xs = some sxs) :
    (xs = [] ∧ sxs = []) ∨
      ∃ x xs2 sx sxs2, xs = x :: xs2 ∧ dumpsVal x = some sx ∧
        dumpsElems xs2 = some sxs2 ∧ sxs = ',' :: ' ' :: (sx ++ sxs2) := by
  cases xs with
  | nil =>
    left
    simp only [dumpsElems, Option.some.injEq] at h
    exact ⟨rfl, h.symm⟩
  | cons x xs2 =>
    right
    cases hx : dumpsVal x with
    | none => rw [dumpsElems, hx] at h; simp at h
    | some sx =>
      cases hxs : dumpsElems xs2 with
      | none => rw [dumpsElems, hx, hxs] at h; simp at h
      | some sxs2 =>
        rw [dumpsElems, hx, hxs] at h
        simp only [Option.some.injEq] at h
        exact ⟨x, xs2, sx, sxs2, rfl, hx, hxs, h.symm⟩

theorem dumpsMembers_inv {kvs : List (String × Json)} {skvs : List Char}
    (h : dumpsMembers kvs = some skvs) :
    (kvs = [] ∧ skvs = []) ∨
      ∃ k v kvs2 sv skvs2, kvs = (k, v) :: kvs2 ∧ dumpsVal v = some sv ∧
        dumpsMembers kvs2 = some skvs2 ∧
        skvs = ',' :: ' ' :: (encodeString k ++ ':' :: ' ' :: sv ++ skvs2) := by
  cases kvs with
  | nil =>
    left
    simp only [dumpsMembers, Option.some.injEq] at h
    exact ⟨rfl, h.symm⟩
  | cons kv kvs2 =>
    right
    obtain ⟨k, v⟩ := kv
    cases hv : dumpsVal v with
    | none => rw [dumpsMembers, hv] at h; simp at h
    | some sv =>
      cases hkvs : dumpsMembers kvs2 with
      | none => rw [dumpsMembers, hv, hkvs] at h; simp at h
      | some skvs2 =>
        rw [dumpsMembers, hv, hkvs] at h
        simp only [Option.some.injEq] at h
        exact ⟨k, v, kvs2, sv, skvs2, rfl, hv, hkvs, h.symm⟩

theorem contains_false_forall {k : String} {ks : List String}
    (h : ks.contains k = false) : ∀ x ∈ ks, x ≠ k := by
  intro x hx hxk
  subst hxk
  simp only [List.contains] at h
  rw [List.elem_eq_mem] at h
  simp at h
  exact h hx

theorem pyUpsert_append (acc : List (String × Json)) (k : String) (v : Json)
    (h : ∀ p ∈ acc, p.1 ≠ k) : pyUpsert acc k v = acc ++ [(k, v)] := by
  induction acc with
  | nil => rfl
  | cons q acc ih =>
    obtain ⟨k2, v2⟩ := q
    have hk2 : k2 ≠ k := h (k2, v2) (by simp)
    simp only [pyUpsert, if_neg hk2, List.cons_append, List.cons.injEq,
      true_and]
    exact ih (fun p hp => h p (by simp [hp]))

theorem foldl_pyUpsert (kvs : List (String × Json)) :
    ∀ acc : List (String × Json),
      (∀ p ∈ kvs, ∀ q ∈ acc, q.1 ≠ p.1) →
      keysFresh (kvs.map Prod.fst) = true →
      List.foldl (fun acc kv => pyUpsert acc kv.1 kv.2) acc kvs = acc ++ kvs := by
  induction kvs with
  | nil => intro acc _ _; simp
  | cons kv kvs ih =>
    intro acc hdisj hfresh
    obtain ⟨k, v⟩ := kv
    simp only [List.map_cons, keysFresh, Bool.and_eq_true,
      Bool.not_eq_true'] at hfresh
    obtain ⟨hcont, hfresh2⟩ := hfresh
    have hknotin : ∀ p ∈ kvs, p.1 ≠ k :=
      fun p hp => contains_false_forall hcont p.1 (by
        simp only [List.mem_map]
        exact ⟨p, hp, rfl⟩)
    simp only [List.foldl_cons]
    rw [pyUpsert_append acc k v
      (fun p hp => hdisj (k, v) (by simp) p hp)]
    rw [ih (acc ++ [(k, v)])
      (by
        intro p hp q hq
        rcases List.mem_append.mp hq with hq | hq
        · exact hdisj p (by simp [hp]) q hq
        · simp at hq
          rw [hq]
          intro hq2
          exact hknotin p hp hq2.symm) hfresh2]
    simp

theorem pyDictPairs_id {kvs : List (String × Json)}
    (h : keysFresh (kvs.map Prod.fst) = true) : pyDictPairs kvs = kvs := by
  unfold pyDictPairs
  rw [foldl_pyUpsert kvs [] (by simp) h]
  simp

theorem encodeString_length (k : String) : 2 ≤ (encodeString k).length := by
  simp [encodeString]

theorem isDigit_ne {c d : Char} (h : isDigitChar c = true)
    (hd : isDigitChar d = false) : ¬ c = d := by
  intro hc
  rw [← hc] at hd
  rw [h] at hd
  exact Bool.noConfusion hd

theorem parseValue_lbracket (f : Nat) {x : Json} {sx : List Char}
    (hx : dumpsVal x = some sx) (tail : List Char) :
    parseValue (f + 1) ('[' :: (sx ++ tail)) =
      match parseElems f (sx ++ tail) with
      | some (xs, r) => some (.arr xs, r)
      | none => none := by
  obtain ⟨c2, cs2, hsx, hws2, hbr2⟩ := dumpsVal_shape hx
  subst hsx
  simp [parseValue, skipWs_not_ws _ hws2, hbr2,
    (show ¬ ('[' : Char) = quot by decide),
    (show ¬ ('[' : Char) = '{' by decide)]

theorem parseValue_lbrace (f : Nat) (k : String) (tail : List Char) :
    parseValue (f + 1) ('{' :: (encodeString k ++ tail)) =
      match parseMembers f (encodeString k ++ tail) with
      | some (kvs, r) => some (.obj (pyDictPairs kvs), r)
      | none => none := by
  rw [encodeString, List.cons_append]
  simp [parseValue, skipWs_not_ws _ (show isWsChar quot = false by decide),
    (show ¬ ('{' : Char) = quot by decide),
    (show ¬ quot = '}' by decide)]

theorem encodeString_skipWs (k : String) (t : List Char) :
    skipWs (encodeString k ++ t) = encodeString k ++ t := by
  rw [encodeString, List.cons_append]
  exact skipWs_not_ws _ (by decide)

theorem parse_dumps_strong : ∀ fuel : Nat,
    (∀ (v : Json) (s rest : List Char), wfVal v = true → dumpsVal v = some s →
      s.length < fuel → numDelim rest = true →
      parseValue fuel (s ++ rest) = some (v, rest)) ∧
    (∀ (x : Json) (xs : List Json) (sx sxs rest : List Char),
      wfVal x = true → wfElems xs = true →
      dumpsVal x = some sx → dumpsElems xs = some sxs →
      sx.length + sxs.length + 2 ≤ fuel →
      parseElems fuel (sx ++ (sxs ++ (']' :: rest))) = some (x :: xs, rest)) ∧
    (∀ (k : String) (v : Json) (kvs : List (String × Json))
        (sv skvs rest : List Char),
      wfVal v = true → wfMembers kvs = true →
      dumpsVal v = some sv → dumpsMembers kvs = some skvs →
      (encodeString k).length + sv.length + skvs.length + 3 ≤ fuel →
      parseMembers fuel
        (encodeString k ++ (':' :: ' ' :: (sv ++ (skvs ++ ('}' :: rest))))) =
        some ((k, v) :: kvs, rest)) := by
  intro fuel
  induction fuel using Nat.strong_induction_on with
  | _ fuel IH =>
  refine ⟨?_, ?_, ?_⟩
  · -- scan one value off the front of its serialization
    intro v s rest hwf hdump hlen hdelim
    cases fuel with
    | zero => omega
    | succ f =>
    cases v with
    | null =>
      have hs : ['n', 'u', 'l', 'l'] = s := by
        simpa [dumpsVal] using hdump
      subst hs
      simp [parseValue, (show ¬ ('n' : Char) = quot by decide),
        (show ¬ ('n' : Char) = '{' by decide),
        (show ¬ ('n' : Char) = '[' by decide)]
    | bool b =>
      cases b with
      | true =>
        have hs : ['t', 'r', 'u', 'e'] = s := by
          simpa [dumpsVal] using hdump
        subst hs
        simp [parseValue, (show ¬ ('t' : Char) = quot by decide),
          (show ¬ ('t' : Char) = '{' by decide),
          (show ¬ ('t' : Char) = '[' by decide),
          (show ¬ ('t' : Char) = 'n' by decide)]
      | false =>
        have hs : ['f', 'a', 'l', 's', 'e'] = s := by
          simpa [dumpsVal] using hdump
        subst hs
        simp [parseValue, (show ¬ ('f' : Char) = quot by decide),
          (show ¬ ('f' : Char) = '{' by decide),
          (show ¬ ('f' : Char) = '[' by decide),
          (show ¬ ('f' : Char) = 'n' by decide),
          (show ¬ ('f' : Char) = 't' by decide)]
    | int n =>
      have hs : intToChars n = s := by simpa [dumpsVal] using hdump
      subst hs
      by_cases hneg : n < 0
      · have hshape : intToChars n = '-' :: natToChars n.natAbs := by
          simp [intToChars, hneg]
        rw [hshape, List.cons_append]
        simp only [parseValue,
          if_neg (show ¬ ('-' : Char) = quot by decide),
          if_neg (show ¬ ('-' : Char) = '{' by decide),
          if_neg (show ¬ ('-' : Char) = '[' by decide),
          if_neg (show ¬ ('-' : Char) = 'n' by decide),
          if_neg (show ¬ ('-' : Char) = 't' by decide),
          if_neg (show ¬ ('-' : Char) = 'f' by decide)]
        rw [if_pos (by simp)]
        rw [← List.cons_append, ← hshape]
        exact parseNumAt_intToChars n rest hdelim
      · have hshape : intToChars n = natToChars n.toNat := by
          simp [intToChars, hneg]
        obtain ⟨c, cs, hcons, hdig, _⟩ := natToChars_cons n.toNat
        rw [hshape, hcons, List.cons_append]
        simp only [parseValue,
          if_neg (isDigit_ne hdig (by decide : isDigitChar quot = false)),
          if_neg (isDigit_ne hdig (by decide : isDigitChar '{' = false)),
          if_neg (isDigit_ne hdig (by decide : isDigitChar '[' = false)),
          if_neg (isDigit_ne hdig (by decide : isDigitChar 'n' = false)),
          if_neg (isDigit_ne hdig (by decide : isDigitChar 't' = false)),
          if_neg (isDigit_ne hdig (by decide : isDigitChar 'f' = false))]
        rw [if_pos (by simp [hdig])]
        rw [← List.cons_append, ← hcons, ← hshape]
        exact parseNumAt_intToChars n rest hdelim
    | float => simp [dumpsVal] at hdump
    | str s2 =>
      have hs : encodeString s2 = s := by simpa [dumpsVal] using hdump
      subst hs
      rw [encodeString, List.cons_append]
      simp only [parseValue, if_pos rfl]
      rw [List.append_assoc, List.singleton_append, scanString_escapeList]
      simp
    | arr xs =>
      cases xs with
      | nil =>
        have hs : ['[', ']'] = s := by simpa [dumpsVal] using hdump
        subst hs
        simp [parseValue, (show ¬ ('[' : Char) = quot by decide),
          (show ¬ ('[' : Char) = '{' by decide),
          skipWs_not_ws _ (show isWsChar ']' = false by decide)]
      | cons x xs2 =>
        cases hx : dumpsVal x with
        | none => rw [dumpsVal, hx] at hdump; simp at hdump
        | some sx =>
          cases hxs : dumpsElems xs2 with
          | none => rw [dumpsVal, hx, hxs] at hdump; simp at hdump
          | some sxs =>
            rw [dumpsVal, hx, hxs] at hdump
            simp only [Option.some.injEq] at hdump
            subst hdump
            have hwf2 : wfVal x = true ∧ wfElems xs2 = true := by
              simpa [wfVal, wfElems, Bool.and_eq_true] using hwf
            have hlen2 : sx.length + sxs.length + 2 ≤ f := by
              simp at hlen
              omega
            have hE := (IH f (by omega)).2.1 x xs2 sx sxs rest
              hwf2.1 hwf2.2 hx hxs hlen2
            have hassoc : ('[' :: (sx ++ sxs ++ [']'])) ++ rest =
                '[' :: (sx ++ (sxs ++ (']' :: rest))) := by simp
            rw [hassoc, parseValue_lbracket f hx, hE]
    | obj kvs =>
      cases kvs with
      | nil =>
        have hs : ['{', '}'] = s := by simpa [dumpsVal] using hdump
        subst hs
        simp [parseValue, (show ¬ ('{' : Char) = quot by decide),
          skipWs_not_ws _ (show isWsChar '}' = false by decide)]
      | cons kv kvs2 =>
        obtain ⟨k, v2⟩ := kv
        cases hv : dumpsVal v2 with
        | none => rw [dumpsVal, hv] at hdump; simp at hdump
        | some sv =>
          cases hkvs : dumpsMembers kvs2 with
          | none => rw [dumpsVal, hv, hkvs] at hdump; simp at hdump
          | some skvs =>
            rw [dumpsVal, hv, hkvs] at hdump
            simp only [Option.some.injEq] at hdump
            subst hdump
            have hwf2 : keysFresh (((k, v2) :: kvs2).map Prod.fst) = true ∧
                wfVal v2 = true ∧ wfMembers kvs2 = true := by
              have := hwf
              simp only [wfVal, wfMembers, Bool.and_eq_true] at this
              exact ⟨this.1, this.2.1, this.2.2⟩
            have hlen2 : (encodeString k).length + sv.length + skvs.length + 3
                ≤ f := by
              simp at hlen
              omega
            have hM := (IH f (by omega)).2.2 k v2 kvs2 sv skvs rest
              hwf2.2.1 hwf2.2.2 hv hkvs hlen2
            have hassoc :
                ('{' :: (encodeString k ++ ':' :: ' ' :: sv ++ skvs ++ ['}']))
                  ++ rest =
                '{' :: (encodeString k ++
                  (':' :: ' ' :: (sv ++ (skvs ++ ('}' :: rest))))) := by
              simp
            rw [hassoc, parseValue_lbrace f k, hM]
            simp [pyDictPairs_id hwf2.1]
  · -- the JSONArray element loop
    intro x xs sx sxs rest hwx hwxs hdx hdxs hbound
    cases fuel with
    | zero => omega
    | succ f =>
    have hsxlen : 1 ≤ sx.length := by
      obtain ⟨c, cs, hc, _, _⟩ := dumpsVal_shape hdx
      simp [hc]
    rcases dumpsElems_inv hdxs with ⟨hxs0, hsxs0⟩ |
      ⟨x2, xs2, sx2, sxs2, hxs2, hdx2, hdxs2, hsxs2⟩
    · subst hxs0
      subst hsxs0
      have hV := (IH f (by omega)).1 x sx (']' :: rest) hwx hdx (by
          simp at hbound
          omega)
        (by simp only [numDelim]; decide)
      simp [parseElems, hV,
        skipWs_not_ws _ (show isWsChar ']' = false by decide)]
    · subst hxs2
      subst hsxs2
      have hwf2 : wfVal x2 = true ∧ wfElems xs2 = true := by
        simpa [wfElems, Bool.and_eq_true] using hwxs
      have hsx2len : 1 ≤ sx2.length := by
        obtain ⟨c, cs, hc, _, _⟩ := dumpsVal_shape hdx2
        simp [hc]
      have hV := (IH f (by omega)).1 x sx
        (',' :: ' ' :: (sx2 ++ (sxs2 ++ (']' :: rest)))) hwx hdx (by
          simp only [List.length_append, List.length_cons] at hbound ⊢
          omega)
        (by simp only [numDelim]; decide)
      have hE2 := (IH f (by omega)).2.1 x2 xs2 sx2 sxs2 rest
        hwf2.1 hwf2.2 hdx2 hdxs2 (by
          simp only [List.length_append, List.length_cons] at hbound ⊢
          omega)
      simp [parseElems, hV, skipWs_space,
        skipWs_not_ws _ (show isWsChar ',' = false by decide),
        (show ¬ (',' : Char) = ']' by decide),
        dumpsVal_skipWs hdx2, hE2]
  · -- the JSONObject member loop
    intro k v kvs sv skvs rest hwv hwkvs hdv hdkvs hbound
    cases fuel with
    | zero => omega
    | succ f =>
    have heklen : 2 ≤ (encodeString k).length := encodeString_length k
    have hsvlen : 1 ≤ sv.length := by
      obtain ⟨c, cs, hc, _, _⟩ := dumpsVal_shape hdv
      simp [hc]
    rcases dumpsMembers_inv hdkvs with ⟨hkvs0, hskvs0⟩ |
      ⟨k2, v2, kvs2, sv2, skvs2, hkvs2, hdv2, hdkvs2, hskvs2⟩
    · subst hkvs0
      subst hskvs0
      have hV := (IH f (by omega)).1 v sv ('}' :: rest) hwv hdv (by omega)
        (by simp only [numDelim]; decide)
      rw [encodeString, List.cons_append]
      simp only [parseMembers, if_pos rfl, List.append_assoc,
        List.singleton_append, List.nil_append]
      rw [scanString_escapeList]
      simp [hV, skipWs_not_ws _ (show isWsChar ':' = false by decide),
        skipWs_not_ws _ (show isWsChar '}' = false by decide), skipWs_space,
        dumpsVal_skipWs hdv]
    · subst hkvs2
      subst hskvs2
      have hwf2 : wfVal v2 = true ∧ wfMembers kvs2 = true := by
        simpa [wfMembers, Bool.and_eq_true] using hwkvs
      have hek2len : 2 ≤ (encodeString k2).length := encodeString_length k2
      have hsv2len : 1 ≤ sv2.length := by
        obtain ⟨c, cs, hc, _, _⟩ := dumpsVal_shape hdv2
        simp [hc]
      have hV := (IH f (by omega)).1 v sv
        (',' :: ' ' :: (encodeString k2 ++
          (':' :: ' ' :: (sv2 ++ (skvs2 ++ ('}' :: rest)))))) hwv hdv (by
          simp only [List.length_append, List.length_cons] at hbound ⊢
          omega)
        (by simp only [numDelim]; decide)
      have hM2 := (IH f (by omega)).2.2 k2 v2 kvs2 sv2 skvs2 rest
        hwf2.1 hwf2.2 hdv2 hdkvs2 (by
          simp only [List.length_append, List.length_cons] at hbound ⊢
          omega)
      rw [encodeString, List.cons_append]
      simp only [parseMembers, if_pos rfl, List.append_assoc,
        List.singleton_append]
      rw [scanString_escapeList]
      simp [hV, skipWs_not_ws _ (show isWsChar ':' = false by decide),
        skipWs_not_ws _ (show isWsChar ',' = false by decide),
        (show ¬ (',' : Char) = '}' by decide), skipWs_space,
        dumpsVal_skipWs hdv, dumpsVal_skipWs hdv2,
        encodeString_skipWs, hM2]

theorem json_loads_dumps {v : Json} {s : List Char} (hwf : wfVal v = true)
    (hdump : dumpsVal v = some s) : json_loads s = some v := by
  obtain ⟨c, cs, hcons, hws, _⟩ := dumpsVal_shape hdump
  unfold json_loads
  have hskip : skipWs s = s := by rw [hcons]; exact skipWs_not_ws _ hws
  have hV := (parse_dumps_strong (s.length + 1)).1 v s [] hwf hdump
    (by omega) (by decide)
  rw [List.append_nil] at hV
  rw [hskip, hV]
  simp [skipWs]

theorem textOfBytes_bytesOfText (s : List Char) :
    textOfBytes (bytesOfText s) = s := by
  unfold textOfBytes bytesOfText
  rw [List.map_map,
    (funext Char.ofNat_toNat : Char.ofNat ∘ Char.toNat = id), List.map_id]

/-- Claim C9: round-trip — for every JSON-representable Request or
Response value (a well-formed Python object: no duplicate dict keys; the
hypotheses also confine the value to the modelled float-free subset and
to the 32-bit length the length prefix can carry), decoding the
length-prefixed bytes produced by encoding it reproduces an equal value:
`recv_message` applied to the stream written by `send_message` returns
the original payload and leaves trailing stream bytes unconsumed. -/
theorem send_recv_roundtrip (payload : Json) (bytes trailing : List Nat)
    (hwf : wfVal payload = true) (hs : send_message payload = some bytes) :
    recv_message (bytes ++ trailing) = some (payload, trailing) := by
  unfold send_message at hs
  cases htxt : json_dumps payload with
  | none => rw [htxt] at hs; exact Option.noConfusion hs
  | some txt =>
    rw [htxt] at hs
    simp only at hs
    cases hpack : packU32BE (bytesOfText txt).length with
    | none => rw [hpack] at hs; exact Option.noConfusion hs
    | some header =>
      rw [hpack] at hs
      simp only [Option.some.injEq] at hs
      subst hs
      unfold packU32BE at hpack
      split at hpack
      case isFalse => exact Option.noConfusion hpack
      case isTrue hlt =>
        simp only [Option.some.injEq] at hpack
        subst hpack
        have hrawlen : (bytesOfText txt).length = txt.length := by
          simp [bytesOfText]
        have hval : (((bytesOfText txt).length / 16777216 % 256 * 256 +
            (bytesOfText txt).length / 65536 % 256) * 256 +
              (bytesOfText txt).length / 256 % 256) * 256 +
            (bytesOfText txt).length % 256 = (bytesOfText txt).length := by
          omega
        unfold recv_message recv_exact unpackU32BE
        rw [if_pos (by simp)]
        simp only [List.cons_append, List.nil_append, List.take_succ_cons,
          List.take_zero, List.drop_succ_cons, List.drop_zero]
        simp only [hval]
        rw [if_pos (by simp), List.take_left, List.drop_left]
        simp [textOfBytes_bytesOfText, json_loads_dumps hwf htxt]

theorem lookup_filter_ne (rid : Nat) (l : List (Nat × List Json)) :
    List.lookup rid (l.filter (fun p => !(p.1 = rid))) = none := by
  induction l with
  | nil => simp
  | cons p t ih =>
    by_cases hp : p.1 = rid
    · simp [List.filter, hp, ih]
    · have hd : (!decide (p.1 = rid)) = true := by simp [hp]
      simp only [List.filter, hd]
      rw [List.lookup]
      have hne : ¬ rid = p.1 := fun h => hp h.symm
      have hbeq : (rid == p.1) = false := by simp [hne]
      simp [hbeq, ih]

theorem lookup_pop (st : ClientState) (rid : Nat) :
    lookup_pending (pop_pending st rid) rid = none := by
  unfold lookup_pending pop_pending
  exact lookup_filter_ne rid st.pending

/-- Claim C3: for any id, a wait returns or raises exactly once — on
every outcome of `wait_response` (result, structured error, protocol
violation, or timeout) the pending entry for the id is gone afterwards, a
second wait on the same id yields the unknown-request failure without
changing the state, and a wait on an id that is absent from the pending
map (never issued or already consumed) yields the unknown-request
failure. -/
theorem wait_response_at_most_once (st : ClientState) (rid : Nat)
    (arrival : Option Json) :
    lookup_pending (wait_response st rid arrival).2 rid = none ∧
    (∀ arrival2 : Option Json,
      wait_response (wait_response st rid arrival).2 rid arrival2 =
        (WaitOutcome.unknownRequest, (wait_response st rid arrival).2)) ∧
    (lookup_pending st rid = none →
      (wait_response st rid arrival).1 = WaitOutcome.unknownRequest) := by
  cases hlk : lookup_pending st rid with
  | none =>
    refine ⟨?_, ?_, fun _ => ?_⟩
    · simp [wait_response, hlk]
    · intro arrival2
      simp [wait_response, hlk]
    · simp [wait_response, hlk]
  | some q =>
    have hsnd : (wait_response st rid arrival).2 = pop_pending st rid := by
      simp [wait_response, hlk]
    refine ⟨?_, ?_, fun hnone => ?_⟩
    · rw [hsnd]
      exact lookup_pop st rid
    · intro arrival2
      rw [hsnd]
      simp [wait_response, lookup_pop st rid]
    · exact Option.noConfusion hnone

/-- Claim C1 counterexample: a delivered response with `ok=true` and a
non-null `error` object — a violation of the ok/result/error exclusivity
invariant — is not rejected by `wait_response`: its result is returned.
The concrete input is a waiting client with pending id 1 receiving
`{"type": "response", "id": 1, "ok": true, "result": 42,
"error": {...}}`. -/
theorem wait_response_ok_true_with_error_returns_result :
    (pyGetKvs [("type", Json.str "response"), ("id", Json.int 1),
        ("ok", Json.bool true), ("result", Json.int 42),
        ("error", Json.obj [("code", Json.str "INTERNAL"),
          ("message", Json.str "boom"), ("details", Json.obj [])])]
      "ok" = Json.bool true) ∧
    (pyGetKvs [("type", Json.str "response"), ("id", Json.int 1),
        ("ok", Json.bool true), ("result", Json.int 42),
        ("error", Json.obj [("code", Json.str "INTERNAL"),
          ("message", Json.str "boom"), ("details", Json.obj [])])]
      "error" = Json.obj [("code", Json.str "INTERNAL"),
        ("message", Json.str "boom"), ("details", Json.obj [])]) ∧
    ((wait_response ⟨2, [(1, [])]⟩ 1
        (some (Json.obj [("type", Json.str "response"), ("id", Json.int 1),
          ("ok", Json.bool true), ("result", Json.int 42),
          ("error", Json.obj [("code", Json.str "INTERNAL"),
            ("message", Json.str "boom"), ("details", Json.obj [])])]))).1 =
      WaitOutcome.result (Json.int 42)) ∧
    (∀ msg : String,
      ¬ (wait_response ⟨2, [(1, [])]⟩ 1
          (some (Json.obj [("type", Json.str "response"), ("id", Json.int 1),
            ("ok", Json.bool true), ("result", Json.int 42),
            ("error", Json.obj [("code", Json.str "INTERNAL"),
              ("message", Json.str "boom"), ("details", Json.obj [])])]))).1 =
        WaitOutcome.protocolViolation msg) :=
  ⟨rfl, rfl, rfl, fun _ h => WaitOutcome.noConfusion h⟩

/-- Claim C1 amended: for a response delivered to a waiting caller,
`wait_response` performs only these checks, in source order: a wrong type
tag or a mismatched id raises a protocol-violation failure; `ok is True`
returns `result` with no check of the `error` field (so ok/result/error
exclusivity is not validated); `ok is False` raises the carried
structured error when `error` is an object and a protocol-violation
failure when it is not; a missing or non-boolean `ok` raises a
protocol-violation failure. -/
theorem wait_response_validation_cases (st : ClientState) (rid : Nat)
    (q : List Json) (kvs : List (String × Json))
    (hq : lookup_pending st rid = some q) :
    (typeOkResp kvs = false →
      (wait_response st rid (some (Json.obj kvs))).1 =
        WaitOutcome.protocolViolation "Invalid response from server") ∧
    (typeOkResp kvs = true → idOkResp kvs rid = false →
      (wait_response st rid (some (Json.obj kvs))).1 =
        WaitOutcome.protocolViolation "Mismatched response id from server") ∧
    (typeOkResp kvs = true → idOkResp kvs rid = true →
      pyGetKvs kvs "ok" = Json.bool true →
      (wait_response st rid (some (Json.obj kvs))).1 =
        WaitOutcome.result (pyGetKvs kvs "result")) ∧
    (typeOkResp kvs = true → idOkResp kvs rid = true →
      pyGetKvs kvs "ok" = Json.bool false →
      ∀ e, pyGetKvs kvs "error" = Json.obj e →
      (wait_response st rid (some (Json.obj kvs))).1 =
        WaitOutcome.rpcError e) ∧
    (typeOkResp kvs = true → idOkResp kvs rid = true →
      pyGetKvs kvs "ok" = Json.bool false →
      isObjJ (pyGetKvs kvs "error") = false →
      (wait_response st rid (some (Json.obj kvs))).1 =
        WaitOutcome.protocolViolation "Invalid error payload from server") ∧
    (typeOkResp kvs = true → idOkResp kvs rid = true →
      (∀ b : Bool, ¬ pyGetKvs kvs "ok" = Json.bool b) →
      (wait_response st rid (some (Json.obj kvs))).1 =
        WaitOutcome.protocolViolation
          "Missing required field \x27ok\x27 in response") := by
  have hout : (wait_response st rid (some (Json.obj kvs))).1 =
      wait_outcome_of rid (some (Json.obj kvs)) := by
    simp [wait_response, hq]
  refine ⟨?_, ?_, ?_, ?_, ?_, ?_⟩
  · intro ht
    rw [hout]
    simp [wait_outcome_of, ht]
  · intro ht hid
    rw [hout]
    simp [wait_outcome_of, ht, hid]
  · intro ht hid hok
    rw [hout]
    simp [wait_outcome_of, ht, hid, hok]
  · intro ht hid hok e herr
    rw [hout]
    simp [wait_outcome_of, ht, hid, hok, herr]
  · intro ht hid hok herr
    rw [hout]
    cases herrv : pyGetKvs kvs "error" with
    | obj e => rw [herrv] at herr; exact absurd herr (by simp [isObjJ])
    | null => simp [wait_outcome_of, ht, hid, hok, herrv]
    | bool b => simp [wait_outcome_of, ht, hid, hok, herrv]
    | int n => simp [wait_outcome_of, ht, hid, hok, herrv]
    | float => simp [wait_outcome_of, ht, hid, hok, herrv]
    | str s2 => simp [wait_outcome_of, ht, hid, hok, herrv]
    | arr xs => simp [wait_outcome_of, ht, hid, hok, herrv]
  · intro ht hid hok
    rw [hout]
    cases hokv : pyGetKvs kvs "ok" with
    | bool b => exact absurd hokv (hok b)
    | null => simp [wait_outcome_of, ht, hid, hokv]
    | int n => simp [wait_outcome_of, ht, hid, hokv]
    | float => simp [wait_outcome_of, ht, hid, hokv]
    | str s2 => simp [wait_outcome_of, ht, hid, hokv]
    | arr xs => simp [wait_outcome_of, ht, hid, hokv]
    | obj kvs2 => simp [wait_outcome_of, ht, hid, hokv]

/-- Witness for `wait_response_validation_cases` at a concrete waiting
client and a concrete failure response carrying a structured error. -/
theorem wait_response_validation_cases_witness :
    (wait_response ⟨2, [(1, [])]⟩ 1
        (some (Json.obj [("id", Json.int 1), ("ok", Json.bool false),
          ("result", Json.null),
          ("error", Json.obj [("code", Json.str "INTERNAL"),
            ("message", Json.str "boom"),
            ("details", Json.obj [])])]))).1 =
      WaitOutcome.rpcError [("code", Json.str "INTERNAL"),
        ("message", Json.str "boom"), ("details", Json.obj [])] :=
  (wait_response_validation_cases ⟨2, [(1, [])]⟩ 1 []
      [("id", Json.int 1), ("ok", Json.bool false), ("result", Json.null),
       ("error", Json.obj [("code", Json.str "INTERNAL"),
         ("message", Json.str "boom"), ("details", Json.obj [])])]
      rfl).2.2.2.1 rfl rfl rfl _ rfl

/-- Claim C4: when the connection dies with requests pending — the
background reader hitting a decode/transport failure, or an explicit
`close()` — every pending waiter is released and none is left without a
delivery: the pending map is emptied, exactly one synthetic response per
formerly pending id is put into its queue (`CONNECTION_CLOSED` for close,
`CONNECTION_ERROR` with the failure text for the reader), the synthetic
response carries a null id — so it passes the id check of any waiter —
and a waiter blocked in `wait_response` that receives it raises the
carried connection-level structured error. -/
theorem connection_death_drains_all_pending (st : ClientState) (rid : Nat)
    (q : List Json) (cause : String)
    (hq : lookup_pending st rid = some q) :
    (client_close st).1.pending = [] ∧
    (reader_fail st cause).1.pending = [] ∧
    ((client_close st).2).length = st.pending.length ∧
    ((reader_fail st cause).2).length = st.pending.length ∧
    (∀ d ∈ (client_close st).2, ∃ p ∈ st.pending,
      d.1 = p.1 ∧ d.2 = p.2 ++ [connection_closed_response]) ∧
    (∀ d ∈ (reader_fail st cause).2, ∃ p ∈ st.pending,
      d.1 = p.1 ∧ d.2 = p.2 ++ [connection_error_response cause]) ∧
    (∀ rid2 : Nat, ∀ kvs, connection_closed_response = Json.obj kvs →
      idOkResp kvs rid2 = true) ∧
    ((wait_response st rid (some connection_closed_response)).1 =
      WaitOutcome.rpcError [("code", Json.str "CONNECTION_CLOSED"),
        ("message", Json.str "Connection closed"),
        ("details", Json.obj [])]) ∧
    ((wait_response st rid (some (connection_error_response cause))).1 =
      WaitOutcome.rpcError [("code", Json.str "CONNECTION_ERROR"),
        ("message", Json.str "Connection dropped while waiting for response"),
        ("details", Json.obj [("cause", Json.str cause)])]) := by
  refine ⟨rfl, rfl, by simp [client_close, drain_pending],
    by simp [reader_fail, drain_pending], ?_, ?_, ?_, ?_, ?_⟩
  · intro d hd
    simp only [client_close, drain_pending, List.mem_map] at hd
    obtain ⟨p, hp, rfl⟩ := hd
    exact ⟨p, hp, rfl, rfl⟩
  · intro d hd
    simp only [reader_fail, drain_pending, List.mem_map] at hd
    obtain ⟨p, hp, rfl⟩ := hd
    exact ⟨p, hp, rfl, rfl⟩
  · intro rid2 kvs hkvs
    cases hkvs
    rfl
  · simp [wait_response, hq]
    rfl
  · simp [wait_response, hq]
    rfl

/-- Witness for `connection_death_drains_all_pending` at a client with
two outstanding requests. -/
theorem connection_death_drains_all_pending_witness :
    ((client_close ⟨3, [(1, []), (2, [])]⟩).2).length = 2 ∧
    (wait_response ⟨3, [(1, []), (2, [])]⟩ 2
        (some connection_closed_response)).1 =
      WaitOutcome.rpcError [("code", Json.str "CONNECTION_CLOSED"),
        ("message", Json.str "Connection closed"),
        ("details", Json.obj [])] := by
  have h := connection_death_drains_all_pending ⟨3, [(1, []), (2, [])]⟩ 2 []
    "boom" rfl
  exact ⟨h.2.2.1, h.2.2.2.2.2.2.2.1⟩

theorem stepOp_next_id_mono (st : ClientState) (op : ClientOp) :
    st.next_id ≤ (stepOp st op).next_id := by
  cases op with
  | callAsync => simp [stepOp, call_async]
  | waitResp rid arrival =>
    simp only [stepOp]
    cases hlk : lookup_pending st rid with
    | none => simp [wait_response, hlk]
    | some q => simp [wait_response, hlk, pop_pending]
  | closeConn => simp [stepOp, client_close, drain_pending]

theorem allocIds_lower (ops : List ClientOp) :
    ∀ (st : ClientState) (i : Nat), i ∈ allocIds st ops → st.next_id ≤ i := by
  induction ops with
  | nil => intro st i hi; simp [allocIds] at hi
  | cons op ops ih =>
    intro st i hi
    cases op with
    | callAsync =>
      simp only [allocIds, List.mem_cons] at hi
      rcases hi with hi | hi
      · simp [hi, call_async]
      · have := ih (stepOp st .callAsync) i hi
        have h2 : (stepOp st ClientOp.callAsync).next_id = st.next_id + 1 := by
          simp [stepOp, call_async]
        omega
    | waitResp rid arrival =>
      simp only [allocIds] at hi
      have := ih (stepOp st (.waitResp rid arrival)) i hi
      have h2 := stepOp_next_id_mono st (.waitResp rid arrival)
      omega
    | closeConn =>
      simp only [allocIds] at hi
      have := ih (stepOp st .closeConn) i hi
      have h2 := stepOp_next_id_mono st .closeConn
      omega

theorem clientInv_step (st : ClientState) (op : ClientOp)
    (hinv : ClientInv st) : ClientInv (stepOp st op) := by
  cases op with
  | callAsync =>
    intro p hp
    have hnid : (stepOp st ClientOp.callAsync).next_id = st.next_id + 1 := rfl
    rw [hnid]
    simp only [stepOp, call_async, List.mem_append, List.mem_singleton] at hp
    rcases hp with hp | hp
    · have := hinv p hp
      omega
    · rw [hp]
      simp
  | waitResp rid arrival =>
    intro p hp
    have hnid : (stepOp st (ClientOp.waitResp rid arrival)).next_id =
        st.next_id := by
      simp only [stepOp]
      cases hlk : lookup_pending st rid with
      | none => simp [wait_response, hlk]
      | some q => simp [wait_response, hlk, pop_pending]
    rw [hnid]
    simp only [stepOp] at hp
    cases hlk : lookup_pending st rid with
    | none =>
      rw [wait_response, hlk] at hp
      exact hinv p hp
    | some q =>
      rw [wait_response, hlk] at hp
      simp only [pop_pending] at hp
      exact hinv p (List.mem_of_mem_filter hp)
  | closeConn =>
    intro p hp
    simp [stepOp, client_close, drain_pending] at hp

theorem lookup_none_of_forall_ne {k : Nat} {l : List (Nat × List Json)}
    (h : ∀ p ∈ l, ¬ p.1 = k) : List.lookup k l = none := by
  induction l with
  | nil => rfl
  | cons p t ih =>
    have hne : ¬ k = p.1 := fun he => h p (by simp) he.symm
    have hbeq : (k == p.1) = false := by simp [hne]
    rw [List.lookup, hbeq]
    exact ih (fun p2 hp2 => h p2 (by simp [hp2]))

/-- Claim C8: the client id counter is strictly increasing — along any
trace of correlation operations the ids handed out by `call_async` are
pairwise strictly increasing in allocation order; and under the
pending-map invariant (every outstanding id is below the counter, true
initially and preserved by every operation) the id `call_async` is about
to register is not already a key of the pending map, so an id is never
reused while a prior request with that id is outstanding. -/
theorem client_ids_strictly_increasing (st : ClientState)
    (ops : List ClientOp) (hinv : ClientInv st) :
    (allocIds st ops).Pairwise (· < ·) ∧
    ClientInv (runOps st ops) ∧
    ClientInv initialClient ∧
    ((call_async st).1 ∉ st.pending.map Prod.fst) ∧
    lookup_pending st (call_async st).1 = none ∧
    (call_async st).1 = st.next_id ∧
    ((call_async st).2).next_id = st.next_id + 1 := by
  refine ⟨?_, ?_, ?_, ?_, ?_, rfl, rfl⟩
  · clear hinv
    induction ops generalizing st with
    | nil => simp [allocIds]
    | cons op ops ih =>
      cases op with
      | callAsync =>
        simp only [allocIds]
        rw [List.pairwise_cons]
        refine ⟨?_, ih (stepOp st .callAsync)⟩
        intro i hi
        have hlow := allocIds_lower ops (stepOp st .callAsync) i hi
        have h2 : (stepOp st ClientOp.callAsync).next_id = st.next_id + 1 := by
          simp [stepOp, call_async]
        simp only [call_async]
        omega
      | waitResp rid arrival => simp only [allocIds]; exact ih _
      | closeConn => simp only [allocIds]; exact ih _
  · induction ops generalizing st with
    | nil => exact hinv
    | cons op ops ih =>
      simp only [runOps]
      exact ih _ (clientInv_step st op hinv)
  · intro p hp
    simp [initialClient] at hp
  · intro hmem
    simp only [call_async, List.mem_map] at hmem
    obtain ⟨p, hp, hp1⟩ := hmem
    have := hinv p hp
    omega
  · exact lookup_none_of_forall_ne (fun p hp => by
      have := hinv p hp
      simp only [call_async]
      omega)

/-- Witness for `client_ids_strictly_increasing`: three allocations from
a fresh client hand out 1, 2, 3. -/
theorem client_ids_strictly_increasing_witness :
    (allocIds initialClient
        [ClientOp.callAsync, ClientOp.callAsync, ClientOp.callAsync]).Pairwise
      (· < ·) ∧
    allocIds initialClient
        [ClientOp.callAsync, ClientOp.callAsync, ClientOp.callAsync] =
      [1, 2, 3] ∧
    lookup_pending initialClient (call_async initialClient).1 = none :=
  ⟨(client_ids_strictly_increasing initialClient
      [ClientOp.callAsync, ClientOp.callAsync, ClientOp.callAsync]
      (fun p hp => by simp [initialClient] at hp)).1,
    rfl,
    (client_ids_strictly_increasing initialClient []
      (fun p hp => by simp [initialClient] at hp)).2.2.2.2.1⟩

/-- Claim C10: a bounded wait timeout is applied by `call` exactly when
`meta` is a mapping whose "timeout_ms" entry is an integer (Python's
`int`, of which `bool` is a subtype), and then that value in milliseconds
is the bound passed to `wait_response`; every other shape — absent key,
float, string, non-mapping meta — is silently ignored, leaving the wait
unbounded.  Stated as: the timeout the code computes equals the
specified rule. -/
theorem call_timeout_hint_refines_spec (meta : PyVal) :
    call_timeout_ms meta = spec_timeout_hint meta := by
  cases meta with
  | dict kvs =>
    cases hlk : List.lookup "timeout_ms" kvs with
    | none => simp [call_timeout_ms, spec_timeout_hint, hlk, pyIsInstInt]
    | some v => simp [call_timeout_ms, spec_timeout_hint, hlk]
  | pynone => rfl
  | bool b => rfl
  | int n => rfl
  | float => rfl
  | str s => rfl
  | list xs => rfl

/-- Claim C2: for a decoded envelope that is not a JSON object — for
example the JSON array `[1, 2, 3]`, a string, or a number — the server
connection loop does not write `BAD_REQUEST` and continue as specified:
line 30 of `ThreadServer._handle_client` evaluates `message.get("type")`
before the `isinstance(message, dict)` guard on line 33, so the thread
dies with an uncaught `AttributeError` and nothing is written.  The
`meta` and `method` validations, which run after that point, do behave as
specified. -/
theorem handle_envelope_nonobject_crashes :
    (handle_envelope (Json.arr [Json.int 1, Json.int 2, Json.int 3]) =
      LoopStep.crash "AttributeError: object has no attribute get") ∧
    (handle_envelope (Json.str "hello") =
      LoopStep.crash "AttributeError: object has no attribute get") ∧
    (handle_envelope (Json.int 5) =
      LoopStep.crash "AttributeError: object has no attribute get") ∧
    (handle_envelope (Json.obj [("method", Json.str "add"),
        ("meta", Json.int 3)]) =
      LoopStep.reply (error_response Json.null "BAD_REQUEST"
        "Field \x27meta\x27 must be an object when provided"
        [("field", Json.str "meta")])) ∧
    (handle_envelope (Json.obj [("id", Json.int 4)]) =
      LoopStep.reply (error_response (Json.int 4) "BAD_REQUEST"
        "Field \x27method\x27 is required and must be a string"
        [("field", Json.str "method")])) :=
  ⟨rfl, rfl, rfl, rfl, rfl⟩

/-- Claim C5: a dispatched request whose method is bound invokes the
handler per the params-spreading rule — an array `params` is spread
positionally, an object `params` is spread by name, and any other
(scalar or null-for-absent) `params` is passed as the single argument —
and the handler outcome alone determines the response; in particular
params `[2, 3]` to the registered addition handler yields a response
with `ok=true` and `result` 5. -/
theorem dispatch_params_spreading (methods : List (String × Handler))
    (req : JRequest) (func : Handler)
    (h : List.lookup req.method methods = some func) :
    (∀ xs, req.params = Json.arr xs →
      dispatch methods req =
        (match func (HArgs.positional xs) with
         | .ok r => ok_response req.request_id r
         | .error msg => error_response req.request_id "INTERNAL" msg
             [("method", Json.str req.method)])) ∧
    (∀ kvs, req.params = Json.obj kvs →
      dispatch methods req =
        (match func (HArgs.named kvs) with
         | .ok r => ok_response req.request_id r
         | .error msg => error_response req.request_id "INTERNAL" msg
             [("method", Json.str req.method)])) ∧
    ((∀ xs, ¬ req.params = Json.arr xs) →
      (∀ kvs, ¬ req.params = Json.obj kvs) →
      dispatch methods req =
        (match func (HArgs.single req.params) with
         | .ok r => ok_response req.request_id r
         | .error msg => error_response req.request_id "INTERNAL" msg
             [("method", Json.str req.method)])) ∧
    (dispatch demo_methods ⟨Json.int 7, "add",
        Json.arr [Json.int 2, Json.int 3], []⟩ =
      ok_response (Json.int 7) (Json.int 5)) ∧
    (∀ kvs, dispatch demo_methods ⟨Json.int 7, "add",
        Json.arr [Json.int 2, Json.int 3], []⟩ = Json.obj kvs →
      pyGetKvs kvs "ok" = Json.bool true ∧
        pyGetKvs kvs "result" = Json.int 5) := by
  refine ⟨?_, ?_, ?_, rfl, ?_⟩
  · intro xs hxs
    simp [dispatch, h, hxs, argsOfParams]
  · intro kvs hkvs
    simp [dispatch, h, hkvs, argsOfParams]
  · intro harr hobj
    have hargs : argsOfParams req.params = HArgs.single req.params := by
      cases hp : req.params with
      | arr xs => exact absurd hp (harr xs)
      | obj kvs => exact absurd hp (hobj kvs)
      | null => rfl
      | bool b => rfl
      | int n => rfl
      | float => rfl
      | str s => rfl
    simp [dispatch, h, hargs]
  · intro kvs hkvs
    have : ok_response (Json.int 7) (Json.int 5) = Json.obj kvs := hkvs
    cases this
    exact ⟨rfl, rfl⟩

/-- Witness for `dispatch_params_spreading` at the demo routing table:
the bound handler `add` is invoked positionally on `[2, 3]`. -/
theorem dispatch_params_spreading_witness :
    dispatch demo_methods ⟨Json.int 7, "add",
        Json.arr [Json.int 2, Json.int 3], []⟩ =
      ok_response (Json.int 7) (Json.int 5) :=
  (dispatch_params_spreading demo_methods
    ⟨Json.int 7, "add", Json.arr [Json.int 2, Json.int 3], []⟩ add
    rfl).2.2.2.1

/-- Claim C6: a dispatched request whose handler raises never propagates
the failure — dispatch returns an error response with `ok=false`,
`error.code` INTERNAL, `error.message` equal to the failure text, and
`error.details.method` the method name; in particular params `[10, 0]` to
the registered division handler yields `ok=false`, code INTERNAL, and a
message containing "zero". -/
theorem dispatch_handler_failure_internal (methods : List (String × Handler))
    (req : JRequest) (func : Handler) (msg : String)
    (h : List.lookup req.method methods = some func)
    (hf : func (argsOfParams req.params) = .error msg) :
    (dispatch methods req = error_response req.request_id "INTERNAL" msg
      [("method", Json.str req.method)]) ∧
    (∀ kvs, dispatch methods req = Json.obj kvs →
      pyGetKvs kvs "ok" = Json.bool false ∧
      ∃ e, pyGetKvs kvs "error" = Json.obj e ∧
        pyGetKvs e "code" = Json.str "INTERNAL" ∧
        pyGetKvs e "message" = Json.str msg ∧
        ∃ d, pyGetKvs e "details" = Json.obj d ∧
          pyGetKvs d "method" = Json.str req.method) ∧
    (dispatch demo_methods ⟨Json.int 9, "divide",
        Json.arr [Json.int 10, Json.int 0], []⟩ =
      error_response (Json.int 9) "INTERNAL" "Division by zero"
        [("method", Json.str "divide")]) ∧
    (∃ pre post : String, "Division by zero" = pre ++ "zero" ++ post) := by
  have hd : dispatch methods req = error_response req.request_id "INTERNAL"
      msg [("method", Json.str req.method)] := by
    simp [dispatch, h, hf]
  refine ⟨hd, ?_, rfl, ⟨"Division by ", "", rfl⟩⟩
  intro kvs hkvs
  rw [hd] at hkvs
  have : error_response req.request_id "INTERNAL" msg
      [("method", Json.str req.method)] = Json.obj kvs := hkvs
  cases this
  exact ⟨rfl, _, rfl, rfl, rfl, _, rfl, rfl⟩

/-- Witness for `dispatch_handler_failure_internal` at the demo routing
table: `divide` on `[10, 0]` raises and dispatch converts the failure. -/
theorem dispatch_handler_failure_internal_witness :
    dispatch demo_methods ⟨Json.int 9, "divide",
        Json.arr [Json.int 10, Json.int 0], []⟩ =
      error_response (Json.int 9) "INTERNAL" "Division by zero"
        [("method", Json.str "divide")] :=
  (dispatch_handler_failure_internal demo_methods
    ⟨Json.int 9, "divide", Json.arr [Json.int 10, Json.int 0], []⟩ divide
    "Division by zero" rfl rfl).2.2.1

/-- Claim C7: a dispatched request whose method is not in the routing
table yields an error response with `ok=false`, `result` null,
`error.code` METHOD_NOT_FOUND and `error.details.method` equal to the
exact method name requested. -/
theorem dispatch_unknown_method_not_found (methods : List (String × Handler))
    (req : JRequest) (h : List.lookup req.method methods = none) :
    (dispatch methods req = error_response req.request_id "METHOD_NOT_FOUND"
      ("Method not found: " ++ req.method)
      [("method", Json.str req.method)]) ∧
    (∀ kvs, dispatch methods req = Json.obj kvs →
      pyGetKvs kvs "ok" = Json.bool false ∧
      pyGetKvs kvs "result" = Json.null ∧
      ∃ e, pyGetKvs kvs "error" = Json.obj e ∧
        pyGetKvs e "code" = Json.str "METHOD_NOT_FOUND" ∧
        ∃ d, pyGetKvs e "details" = Json.obj d ∧
          pyGetKvs d "method" = Json.str req.method) := by
  have hd : dispatch methods req = error_response req.request_id
      "METHOD_NOT_FOUND" ("Method not found: " ++ req.method)
      [("method", Json.str req.method)] := by
    simp [dispatch, h]
  refine ⟨hd, ?_⟩
  intro kvs hkvs
  rw [hd] at hkvs
  have : error_response req.request_id "METHOD_NOT_FOUND"
      ("Method not found: " ++ req.method)
      [("method", Json.str req.method)] = Json.obj kvs := hkvs
  cases this
  exact ⟨rfl, rfl, _, rfl, rfl, _, rfl, rfl⟩

/-- Witness for `dispatch_unknown_method_not_found` at the demo routing
table and an unregistered method name. -/
theorem dispatch_unknown_method_not_found_witness :
    dispatch demo_methods ⟨Json.int 99, "missing_method", Json.arr [], []⟩ =
      error_response (Json.int 99) "METHOD_NOT_FOUND"
        "Method not found: missing_method"
        [("method", Json.str "missing_method")] :=
  (dispatch_unknown_method_not_found demo_methods
    ⟨Json.int 99, "missing_method", Json.arr [], []⟩ rfl).1

/-- Witness for `wait_response_at_most_once`: a client with pending id 1
times out waiting; afterwards the entry is gone and a second wait fails
with the unknown-request failure. -/
theorem wait_response_at_most_once_witness :
    lookup_pending (wait_response ⟨2, [(1, [])]⟩ 1 none).2 1 = none ∧
    wait_response (wait_response ⟨2, [(1, [])]⟩ 1 none).2 1 none =
      (WaitOutcome.unknownRequest, (wait_response ⟨2, [(1, [])]⟩ 1 none).2) :=
  ⟨(wait_response_at_most_once ⟨2, [(1, [])]⟩ 1 none).1,
    (wait_response_at_most_once ⟨2, [(1, [])]⟩ 1 none).2.1 none⟩

/-- Witness for `send_recv_roundtrip`: a concrete success response
round-trips through the framed stream, with trailing bytes preserved. -/
theorem send_recv_roundtrip_witness :
    wfVal (ok_response (Json.int 1) (Json.int 5)) = true ∧
    recv_message
        ((send_message (ok_response (Json.int 1) (Json.int 5))).getD [] ++
          [7]) =
      some (ok_response (Json.int 1) (Json.int 5), [7]) :=
  ⟨by decide,
    send_recv_roundtrip (ok_response (Json.int 1) (Json.int 5)) _ [7]
      (by decide) (by rfl)⟩
